import Mathlib

/-!
# MAX7219 LED-matrix driver (`src/display.c`): embedding and verified properties

The C program keeps a pixel buffer for a chain of 8×8 LED modules, tracks which
register rows changed, packs every changed row into one SPI frame for the whole
chain, and can load the buffer from a 1-bit-per-pixel BMP read from `stdin`.

Conventions of the embedding

* C arrays are maps from indices to values. `display dispY dispX localY localX`
  stands for `display[dispY][dispX].pixels[localY][localX].value` and
  `changes reg` for `changes[reg]`. Only indices inside the declared bounds
  (`dispY < DISPLAY_Y`, `dispX < DISPLAY_X`, `localY < MATRIX_HEIGHT`,
  `localX < MATRIX_WIDTH`, `reg < MATRIX_HEIGHT`) denote memory of the C object;
  an access outside them is undefined in C, and the theorems speak about
  in-range indices.
* `uint8_t` values are natural numbers below 256; where the C code stores the
  result of an arithmetic expression into a `uint8_t`, the truncation `% 256`
  is written out.
* `int` loop counters and coordinates are natural numbers: every loop of the
  program counts upwards from 0, and a negative coordinate would index in front
  of an array.
* A byte stream (`stdin`, a buffer) is a `List Nat` of bytes.
-/

set_option maxRecDepth 4000

namespace Max7219

/-! ## Constants (`#define`s of the source) -/

/-- SPI channel, `#define SPI_CHANNEL 0`. -/
abbrev SPI_CHANNEL : Nat := 0

/-- The no-op register address, `#define MAX7219_REG_NOOP 0x00`. -/
abbrev MAX7219_REG_NOOP : Nat := 0x00

/-- Rows of one module, `#define MATRIX_HEIGHT 8`. -/
abbrev MATRIX_HEIGHT : Nat := 8

/-- Columns of one module, `#define MATRIX_WIDTH 8`. -/
abbrev MATRIX_WIDTH : Nat := 8

/-- Modules per module row, `#define DISPLAY_X 4`. -/
abbrev DISPLAY_X : Nat := 4

/-- Module rows, `#define DISPLAY_Y 1`. -/
abbrev DISPLAY_Y : Nat := 1

/-- Width of the logical grid, `#define GRID_WIDTH MATRIX_WIDTH * DISPLAY_X`. -/
abbrev GRID_WIDTH : Nat := MATRIX_WIDTH * DISPLAY_X

/-- Height of the logical grid, `#define GRID_HEIGHT MATRIX_HEIGHT * DISPLAY_Y`. -/
abbrev GRID_HEIGHT : Nat := MATRIX_HEIGHT * DISPLAY_Y

/-- Number of chained modules, `static int displayCount = DISPLAY_X * DISPLAY_Y`
(never assigned afterwards). -/
abbrev displayCount : Nat := DISPLAY_X * DISPLAY_Y

/-! ## Data model -/

/-- The C struct `MatrixState`: the pixel value of every cell of every module and
one change flag per register row. -/
structure MatrixState where
  /-- The C expression `display[dispY][dispX].pixels[localY][localX].value`. -/
  display : Nat → Nat → Nat → Nat → Nat
  /-- The C expression `changes[reg]`: 1 if the row changed, 0 if not. -/
  changes : Nat → Nat

/-- The state after `memset(&matrix, 0, sizeof(MatrixState))` in `main`. -/
def zeroState : MatrixState :=
  { display := fun _ _ _ _ => 0, changes := fun _ => 0 }

/-- Read of the pixel at logical coordinate `(x, y)`: module `[y/8][x/8]`, local
row `y % 8`, local column `x % 8` (the cell `setPixel` addresses). -/
def getPixel (matrix : MatrixState) (x y : Nat) : Nat :=
  matrix.display (y / MATRIX_HEIGHT) (x / MATRIX_WIDTH) (y % MATRIX_HEIGHT) (x % MATRIX_WIDTH)

/-- A C loop `for (int i = 0; i < n; i++) body`: the body runs for
`i = 0, 1, …, n - 1` in this order on the loop state. -/
def forLoop {σ : Type} (n : Nat) (body : Nat → σ → σ) (s : σ) : σ :=
  match n with
  | 0 => s
  | k + 1 => body k (forLoop k body s)

/-- The same loop with a body that can hit undefined behaviour (`none`), which
ends the run. -/
def forLoopM {σ : Type} (n : Nat) (body : Nat → σ → Option σ) (s : σ) : Option σ :=
  match n with
  | 0 => some s
  | k + 1 => (forLoopM k body s).bind (body k)

/-! ## Pixel writes -/

/-- The C function `setPixel` (lines 75-88). -/
def setPixel (matrix : MatrixState) (x y value : Nat) : MatrixState :=
  let dispX := x / MATRIX_WIDTH
  let dispY := y / MATRIX_HEIGHT
  let localX := x % MATRIX_WIDTH
  let localY := y % MATRIX_HEIGHT
  if matrix.display dispY dispX localY localX ≠ value then
    { display := fun dY dX lY lX =>
        if dY = dispY ∧ dX = dispX ∧ lY = localY ∧ lX = localX then value
        else matrix.display dY dX lY lX
      changes := fun reg => if reg = localY then 1 else matrix.changes reg }
  else matrix

/-- The C function `clearDisplay` (lines 142-148). -/
def clearDisplay (matrix : MatrixState) : MatrixState :=
  forLoop GRID_HEIGHT (fun y matrix =>
    forLoop GRID_WIDTH (fun x matrix => setPixel matrix x y 0) matrix) matrix

/-! ## Flushing changed rows over SPI -/

/-- The C function `spiSendData` (lines 70-72). `bus` is the log of the buffers
handed to `wiringPiSPIDataRW` so far; the call appends the first `length` bytes
of `data`. The library call returns an `int` status, which the C function drops:
`wiringPiSPIDataRW` stands for that status and has no influence on the result. -/
def spiSendData (wiringPiSPIDataRW : Nat → List Nat → Int) (bus : List (List Nat))
    (data : List Nat) (length : Nat) : List (List Nat) :=
  let _status := wiringPiSPIDataRW SPI_CHANNEL (data.take length)
  bus ++ [data.take length]

/-- The body of the module loops of `applyUpdates` (lines 101-108): the address
and value bytes of module `[dispY][dispX]` are written into `buf` for register
row `reg`. -/
def fillModule (matrix : MatrixState) (reg dispY dispX : Nat) (buf : List Nat) : List Nat :=
  let index := (dispY * DISPLAY_X + dispX) * 2
  let buf := buf.set index ((reg + 1) % 256)
  let buf := buf.set (index + 1) 0
  forLoop MATRIX_WIDTH (fun col buf =>
    let reverse := MATRIX_WIDTH - col - 1
    buf.set (index + 1)
      ((buf.getD (index + 1) 0 ||| (matrix.display dispY dispX reg reverse <<< col)) % 256)) buf

/-- The buffer `buf` of `applyUpdates` when it is handed to `spiSendData`
(lines 94-110) for register row `reg`. -/
def fillFrame (matrix : MatrixState) (reg : Nat) : List Nat :=
  let buf := List.replicate (2 * displayCount) MAX7219_REG_NOOP
  forLoop DISPLAY_Y (fun dispY buf =>
    forLoop DISPLAY_X (fun dispX buf => fillModule matrix reg dispY dispX buf) buf) buf

/-- The C function `applyUpdates` (lines 91-117). The result is the log of the
frames handed to the transport, oldest first, and the state afterwards. -/
def applyUpdates (wiringPiSPIDataRW : Nat → List Nat → Int) (matrix : MatrixState) :
    List (List Nat) × MatrixState :=
  forLoop MATRIX_HEIGHT (fun reg (s : List (List Nat) × MatrixState) =>
    let bus := s.1
    let matrix := s.2
    if matrix.changes reg ≠ 0 then
      let buf := fillFrame matrix reg
      let bus := spiSendData wiringPiSPIDataRW bus buf (2 * displayCount)
      (bus, { matrix with changes := fun r => if r = reg then 0 else matrix.changes r })
    else (bus, matrix)) ([], matrix)

/-! ## Bitmap import -/

/-- Size of the packed C struct `BMPFileHeader`: 2 + 4 + 2 + 2 + 4 bytes. -/
abbrev sizeofBMPFileHeader : Nat := 14

/-- Size of the packed C struct `BMPInfoHeader`: 4 + 4 + 4 + 2 + 2 + 4 + 4 bytes. -/
abbrev sizeofBMPInfoHeader : Nat := 24

/-- The unsigned 32-bit field stored little-endian at byte offset `off` of
`bytes` (the byte order of the BMP format and of the target). -/
def readU32 (bytes : List Nat) (off : Nat) : Nat :=
  bytes.getD off 0 + 256 * bytes.getD (off + 1) 0 + 65536 * bytes.getD (off + 2) 0
    + 16777216 * bytes.getD (off + 3) 0

/-- The unsigned 16-bit field stored little-endian at byte offset `off`. -/
def readU16 (bytes : List Nat) (off : Nat) : Nat :=
  bytes.getD off 0 + 256 * bytes.getD (off + 1) 0

/-- The value of a 32-bit pattern read as `int32_t` (two's complement). -/
def toInt32 (n : Nat) : Int :=
  if n < 2147483648 then (n : Int) else (n : Int) - 4294967296

/-- The packed C struct `BMPFileHeader` (lines 49-55). -/
structure BMPFileHeader where
  signature0 : Nat
  signature1 : Nat
  fileSize : Nat
  reserved1 : Nat
  reserved2 : Nat
  image_data_address : Nat

/-- The packed C struct `BMPInfoHeader` (lines 57-65). -/
structure BMPInfoHeader where
  headerSize : Nat
  width : Int
  height : Int
  planes : Nat
  bitsPerPixel : Nat
  compression : Nat
  imageSize : Nat

/-- The struct that `fread(&fileHeader, sizeof(BMPFileHeader), 1, stdin)` leaves
in `fileHeader` when the 14 bytes `bytes` were read. -/
def parseFileHeader (bytes : List Nat) : BMPFileHeader :=
  { signature0 := bytes.getD 0 0
    signature1 := bytes.getD 1 0
    fileSize := readU32 bytes 2
    reserved1 := readU16 bytes 6
    reserved2 := readU16 bytes 8
    image_data_address := readU32 bytes 10 }

/-- The struct that `memcpy(&infoHeader, fileData, sizeof(BMPInfoHeader))` leaves
in `infoHeader`. -/
def parseInfoHeader (fileData : List Nat) : BMPInfoHeader :=
  { headerSize := readU32 fileData 0
    width := toInt32 (readU32 fileData 4)
    height := toInt32 (readU32 fileData 8)
    planes := readU16 fileData 12
    bitsPerPixel := readU16 fileData 14
    compression := readU32 fileData 16
    imageSize := readU32 fileData 20 }

/-- What the program's environment decides for `readBMP`. -/
structure Host where
  /-- Width of `size_t` in bits (32 or 64 on the targets of wiringPi). -/
  sizeBits : Nat
  /-- Whether `malloc(n)` returns a non-null pointer. -/
  mallocOk : Nat → Bool

/-- `a - b` computed in `size_t`, wrapping around. -/
def Host.sizeSub (host : Host) (a b : Nat) : Nat :=
  (a + 2 ^ host.sizeBits - b % 2 ^ host.sizeBits) % 2 ^ host.sizeBits

/-- The ways `readBMP` returns, named after the message it prints. -/
inductive BMPExit where
  /-- Line 174: "Error reading BMP file header." -/
  | headerReadError
  /-- Line 180: "Error: Not a valid BMP file (incorrect signature)." -/
  | badSignature
  /-- Line 191: "Memory allocation failed for file data." -/
  | allocFailed
  /-- Line 197: "Error reading BMP file data." -/
  | dataReadError
  /-- Line 210: "Error: BMP image dimensions ... do not match expected grid size" -/
  | dimensionMismatch
  /-- Line 241: the function ran to its end. -/
  | loaded
  deriving DecidableEq

/-- The error kinds of the specification's bitmap importer. -/
inductive ErrorKind where
  | TruncatedInput
  | InvalidFormat
  | DimensionMismatch
  | UnsupportedFormat
  deriving DecidableEq

/-- The error kind that an exit of `readBMP` stands for: a short read of the
header or of the file data is `TruncatedInput`, a wrong signature is
`InvalidFormat`, wrong dimensions are `DimensionMismatch`. A failed allocation
has no counterpart among the kinds, and `loaded` is success. -/
def BMPExit.kind : BMPExit → Option ErrorKind
  | .headerReadError => some .TruncatedInput
  | .badSignature => some .InvalidFormat
  | .allocFailed => none
  | .dataReadError => some .TruncatedInput
  | .dimensionMismatch => some .DimensionMismatch
  | .loaded => none

/-- The row size of line 220: `((infoHeader.width + 31) / 32) * 4` computed in
`int` (division truncating towards zero) and stored in a `uint32_t`. -/
def rowSize (width : Int) : Nat :=
  (((width + 31).tdiv 32 * 4) % 4294967296).toNat

/-- The C function `readBMP` (lines 166-241) on the bytes `stdin` still to be
read from standard input. The result is `none` when the run reads outside
`fileData` (undefined behaviour in C); otherwise it is the exit taken and the
state of the grid at that point. The pointer `pixelData` is kept as its offset
into `fileData`. -/
def readBMP (host : Host) (stdin : List Nat) (matrix : MatrixState) :
    Option (BMPExit × MatrixState) :=
  -- fread(&fileHeader, sizeof(BMPFileHeader), 1, stdin) != 1
  if stdin.length < sizeofBMPFileHeader then some (.headerReadError, matrix) else
  let fileHeader := parseFileHeader (stdin.take sizeofBMPFileHeader)
  let stdin := stdin.drop sizeofBMPFileHeader
  if fileHeader.signature0 ≠ 'B'.toNat ∨ fileHeader.signature1 ≠ 'M'.toNat then
    some (.badSignature, matrix) else
  -- malloc(fileHeader.fileSize - sizeof(BMPFileHeader))
  let size := host.sizeSub fileHeader.fileSize sizeofBMPFileHeader
  if host.mallocOk size = false then some (.allocFailed, matrix) else
  -- fread(fileData, size, 1, stdin) != 1: one item of `size` bytes
  if size = 0 ∨ stdin.length < size then some (.dataReadError, matrix) else
  let fileData := stdin.take size
  -- memcpy(&infoHeader, fileData, sizeof(BMPInfoHeader))
  if size < sizeofBMPInfoHeader then none else
  let infoHeader := parseInfoHeader fileData
  if infoHeader.width ≠ GRID_WIDTH ∨ infoHeader.height ≠ GRID_HEIGHT then
    some (.dimensionMismatch, matrix) else
  -- pixelData = fileData + (fileHeader.image_data_address - sizeof(BMPFileHeader))
  let pixelData := host.sizeSub fileHeader.image_data_address sizeofBMPFileHeader
  let rowSize := rowSize infoHeader.width
  (forLoopM GRID_HEIGHT (fun y matrix =>
    let bmpRow := GRID_HEIGHT - 1 - y
    forLoopM GRID_WIDTH (fun x matrix =>
      let byteIndex := (bmpRow * rowSize + x / 8) % 4294967296
      let bitIndex := 7 - x % 8
      -- pixelData[byteIndex]
      match fileData[pixelData + byteIndex]? with
      | none => none
      | some byte =>
        let pixelValue := ((byte >>> bitIndex) &&& 1) % 256
        some (setPixel matrix x y pixelValue)) matrix) matrix).map
    (fun matrix => (BMPExit.loaded, matrix))

/-! ## Definitions used by the statements -/

/-- The value byte that the column loop of `applyUpdates` (lines 103-108) builds
from one row `row` of a module, `row c` being the pixel at local column `c`. -/
def packRow (row : Nat → Nat) : Nat :=
  forLoop MATRIX_WIDTH (fun col acc =>
    (acc ||| (row (MATRIX_WIDTH - col - 1) <<< col)) % 256) 0

/-- A sample state: the zero-initialised grid after `setPixel(&matrix, 31, 7, 1)`. -/
def exampleState : MatrixState := setPixel zeroState 31 7 1

/-- A transport whose every call reports status 0. -/
def okStatus : Nat → List Nat → Int := fun _ _ => 0

/-- A host with a 32-bit `size_t` on which every allocation succeeds. -/
def sampleHost : Host := { sizeBits := 32, mallocOk := fun _ => true }

/-- A complete 32×8 bitmap at 1 bit per pixel: the 14-byte file header (declared size 94,
data offset 62), a 40-byte info header, two palette entries and 8 raster rows of 4 bytes,
bottom row first. -/
def sampleBMP : List Nat :=
  [66, 77, 94, 0, 0, 0, 0, 0, 0, 0, 62, 0, 0, 0,
   40, 0, 0, 0, 32, 0, 0, 0, 8, 0, 0, 0, 1, 0, 1, 0, 0, 0, 0, 0, 32, 0, 0, 0,
   0, 0, 0, 0, 0, 0, 0, 0, 0, 0, 0, 0, 0, 0, 0, 0,
   0, 0, 0, 0, 255, 255, 255, 0,
   1, 2, 3, 4, 5, 6, 7, 8, 9, 10, 11, 12, 13, 14, 15, 16,
   17, 18, 19, 20, 21, 22, 23, 24, 25, 26, 27, 28, 128, 30, 31, 32]

/-- Fourteen bytes that do not start with "BM". -/
def notBMP : List Nat := [88, 89, 14, 0, 0, 0, 0, 0, 0, 0, 14, 0, 0, 0]

/-- The two headers of a 33×8 bitmap (declared size 126, data offset 62) with nothing
after them: the file is cut off after 38 bytes. -/
def wideHeaders : List Nat :=
  [66, 77, 126, 0, 0, 0, 0, 0, 0, 0, 62, 0, 0, 0,
   40, 0, 0, 0, 33, 0, 0, 0, 8, 0, 0, 0, 1, 0, 1, 0, 0, 0, 0, 0, 64, 0, 0, 0]

/-- A complete 33×8 bitmap of 126 bytes: `wideHeaders` followed by the rest of the info
header, the palette and the raster, all zero. -/
def wideBMP : List Nat := wideHeaders ++ List.replicate 88 0

/-- The bitmap `sampleBMP` with its declared data offset raised from 62 to 63: the last
raster byte the decode needs then lies one byte past the 80 bytes read after the file
header. -/
def badOffsetBMP : List Nat := sampleBMP.set 10 63

/-- A transport whose every call reports the failure status -1. -/
def failStatus : Nat → List Nat → Int := fun _ _ => -1

/-- A grid with every pixel lit and no dirty row. -/
def fullState : MatrixState :=
  { display := fun _ _ _ _ => 1, changes := fun _ => 0 }

/-- The row loops of `readBMP` (lines 223-237) on the buffer `fileData`, with `pixelData`
the offset of the raster in it and `rowSize` the row stride. -/
def decodeRows (fileData : List Nat) (pixelData rowSize : Nat) (matrix : MatrixState) :
    Option MatrixState :=
  forLoopM GRID_HEIGHT (fun y matrix =>
    let bmpRow := GRID_HEIGHT - 1 - y
    forLoopM GRID_WIDTH (fun x matrix =>
      let byteIndex := (bmpRow * rowSize + x / 8) % 4294967296
      let bitIndex := 7 - x % 8
      match fileData[pixelData + byteIndex]? with
      | none => none
      | some byte =>
        let pixelValue := ((byte >>> bitIndex) &&& 1) % 256
        some (setPixel matrix x y pixelValue)) matrix) matrix

/-- A 50-byte stream whose declared data offset 14 puts the raster on top of the info
header: signature "BM", declared size 50, width 32, height 8, bitsPerPixel 1 in bytes 28
and 29. -/
def overlapBMP : List Nat :=
  [66, 77, 50, 0, 0, 0, 0, 0, 0, 0, 14, 0, 0, 0,
   40, 0, 0, 0, 32, 0, 0, 0, 8, 0, 0, 0, 1, 0, 1, 0, 0, 0, 0, 0, 0, 0, 0, 0,
   0, 0, 0, 0, 0, 0, 0, 0, 0, 0, 0, 0]

/-! ## The shadow of the row registers -/

/-- The row registers of the modules as the frames sent so far have left them:
`shadow i r` is the byte in row register `r` (address `r + 1`) of module `i`. -/
abbrev Shadow : Type := Nat → Nat → Nat

/-- The effect of one sent frame on the shadow: pair `i` of the frame, when its address
byte is `r + 1` for a row `r` in 0..7, overwrites row `r` of module `i` with its value
byte; every other register keeps its byte. -/
def applyFrame (shadow : Shadow) (frame : List Nat) : Shadow :=
  fun i r =>
    if i < displayCount ∧ r < MATRIX_HEIGHT ∧ frame.getD (2 * i) 0 = r + 1 then
      frame.getD (2 * i + 1) 0
    else shadow i r

/-- Shadow and grid agree on local row `row`: every module's shadow row is the byte packed
from the grid's current pixels of that row. -/
def rowAgrees (matrix : MatrixState) (shadow : Shadow) (row : Nat) : Prop :=
  ∀ dispY dispX, dispY < DISPLAY_Y → dispX < DISPLAY_X →
    shadow (dispY * DISPLAY_X + dispX) row = packRow (matrix.display dispY dispX row)

/-- The invariant of dirty tracking: shadow and grid agree on every local row 0..7 whose
dirty flag is clear. -/
def shadowInv (matrix : MatrixState) (shadow : Shadow) : Prop :=
  ∀ row, row < MATRIX_HEIGHT → matrix.changes row = 0 → rowAgrees matrix shadow row

/-- Shadow and grid agree on all local rows 0..7 of all modules. -/
def shadowAgrees (matrix : MatrixState) (shadow : Shadow) : Prop :=
  ∀ row, row < MATRIX_HEIGHT → rowAgrees matrix shadow row

/-- The operations of the driver on the grid. -/
inductive Op where
  | setPixel (x y value : Nat)
  | clearDisplay
  | readBMP (host : Host) (stdin : List Nat)
  | applyUpdates (wiringPiSPIDataRW : Nat → List Nat → Int)

/-- One operation on the grid and the shadow. Only `applyUpdates` touches the shadow: each
frame it sends is applied in the order sent. The result is `none` where the C program is
undefined: `setPixel` outside the grid (or with a value that is no `uint8_t`), and
`readBMP` reading outside its buffer. -/
def step (op : Op) (s : MatrixState × Shadow) : Option (MatrixState × Shadow) :=
  match op with
  | .setPixel x y value =>
    if x < GRID_WIDTH ∧ y < GRID_HEIGHT ∧ value < 256 then some (setPixel s.1 x y value, s.2)
    else none
  | .clearDisplay => some (clearDisplay s.1, s.2)
  | .readBMP host stdin => (readBMP host stdin s.1).map (fun r => (r.2, s.2))
  | .applyUpdates rw => some ((applyUpdates rw s.1).2, (applyUpdates rw s.1).1.foldl applyFrame s.2)

/-- A sequence of operations, run from left to right. -/
def run (ops : List Op) (s : MatrixState × Shadow) : Option (MatrixState × Shadow) :=
  match ops with
  | [] => some s
  | op :: rest => (step op s).bind (run rest)

/-- The grid `m'` keeps the clean rows of `m`: every row whose flag is clear in `m'` had a
clear flag in `m` and holds the same pixels in every module. -/
def keepsCleanRows (m m' : MatrixState) : Prop :=
  ∀ row, m'.changes row = 0 →
    m.changes row = 0 ∧ ∀ dispY dispX, m'.display dispY dispX row = m.display dispY dispX row

/-! ## Loops, pixel writes and frames: auxiliary lemmas -/

theorem forLoop_succ {σ : Type} (n : Nat) (body : Nat → σ → σ) (s : σ) :
    forLoop (n + 1) body s = body n (forLoop n body s) := rfl

theorem setPixel_display (m : MatrixState) (x y v dY dX lY lX : Nat) :
    (setPixel m x y v).display dY dX lY lX =
      if dY = y / 8 ∧ dX = x / 8 ∧ lY = y % 8 ∧ lX = x % 8 then v
      else m.display dY dX lY lX := by
  unfold setPixel
  by_cases h : m.display (y / 8) (x / 8) (y % 8) (x % 8) = v
  · simp only [h, ne_eq, not_true_eq_false, if_false]
    split_ifs with h2
    · obtain ⟨rfl, rfl, rfl, rfl⟩ := h2
      exact h
    · rfl
  · simp only [ne_eq, h, not_false_eq_true, if_true]

theorem setPixel_changes (m : MatrixState) (x y v r : Nat) :
    (setPixel m x y v).changes r =
      if r = y % 8 ∧ getPixel m x y ≠ v then 1 else m.changes r := by
  unfold setPixel getPixel
  by_cases h : m.display (y / 8) (x / 8) (y % 8) (x % 8) = v
  · simp [h]
  · simp [h]

theorem setPixel_of_eq (m : MatrixState) (x y v : Nat) (h : getPixel m x y = v) :
    setPixel m x y v = m := by
  unfold getPixel at h
  unfold setPixel
  simp [h]

theorem getPixel_setPixel (m : MatrixState) (x y v x' y' : Nat) :
    getPixel (setPixel m x y v) x' y' =
      if x' = x ∧ y' = y then v else getPixel m x' y' := by
  simp only [getPixel, MATRIX_HEIGHT, MATRIX_WIDTH]
  rw [setPixel_display]
  by_cases h : x' = x ∧ y' = y
  · obtain ⟨rfl, rfl⟩ := h
    simp
  · rw [if_neg h, if_neg]
    rintro ⟨h1, h2, h3, h4⟩
    apply h
    constructor <;> omega

theorem forLoop_one {σ : Type} (body : Nat → σ → σ) (s : σ) :
    forLoop 1 body s = body 0 s := rfl

theorem forLoop_four {σ : Type} (body : Nat → σ → σ) (s : σ) :
    forLoop 4 body s = body 3 (body 2 (body 1 (body 0 s))) := rfl

theorem set_getD_self (buf : List Nat) (j : Nat) : buf.set j (buf.getD j 0) = buf := by
  apply List.ext_getElem?
  intro i
  rw [List.getElem?_set]
  split_ifs with h1 h2
  · subst h1
    rw [List.getD_eq_getElem _ _ h2, List.getElem?_eq_getElem h2]
  · subst h1
    rw [List.getElem?_eq_none (by omega)]
  · rfl

theorem getD_set_self (buf : List Nat) (j a : Nat) (hj : j < buf.length) :
    (buf.set j a).getD j 0 = a := by
  rw [List.getD_eq_getElem _ _ (by simpa using hj), List.getElem_set_self]

theorem orLoop_eq (f : Nat → Nat) (j n : Nat) (buf : List Nat) (hj : j < buf.length) :
    forLoop n (fun col b => b.set j ((b.getD j 0 ||| f col) % 256)) buf =
      buf.set j (forLoop n (fun col acc => (acc ||| f col) % 256) (buf.getD j 0)) := by
  induction n with
  | zero => exact (set_getD_self buf j).symm
  | succ k ih =>
    rw [forLoop_succ, forLoop_succ, ih]
    simp only [List.set_set]
    rw [getD_set_self _ _ _ hj]

theorem moduleStep (row : Nat → Nat) (idx : Nat) (buf : List Nat) (h : idx < buf.length)
    (h0 : buf.getD idx 0 = 0) :
    forLoop MATRIX_WIDTH (fun col b =>
        b.set idx ((b.getD idx 0 ||| (row (MATRIX_WIDTH - col - 1) <<< col)) % 256)) buf
      = buf.set idx (packRow row) := by
  rw [orLoop_eq (fun col => row (MATRIX_WIDTH - col - 1) <<< col) idx MATRIX_WIDTH _ h, h0]
  rfl

theorem fillModule_eq (m : MatrixState) (reg dispY dispX : Nat) (buf : List Nat)
    (h : (dispY * DISPLAY_X + dispX) * 2 + 1 < buf.length) :
    fillModule m reg dispY dispX buf =
      (buf.set ((dispY * DISPLAY_X + dispX) * 2) ((reg + 1) % 256)).set
        ((dispY * DISPLAY_X + dispX) * 2 + 1) (packRow (m.display dispY dispX reg)) := by
  unfold fillModule
  simp only []
  rw [moduleStep (m.display dispY dispX reg) ((dispY * DISPLAY_X + dispX) * 2 + 1) _
    (by simpa using h) (getD_set_self _ _ _ (by simpa using h)), List.set_set]

theorem fillFrame_eq (m : MatrixState) (reg : Nat) :
    fillFrame m reg =
      [(reg + 1) % 256, packRow (m.display 0 0 reg), (reg + 1) % 256, packRow (m.display 0 1 reg),
       (reg + 1) % 256, packRow (m.display 0 2 reg), (reg + 1) % 256, packRow (m.display 0 3 reg)] := by
  have h1 : forLoop 1 (fun dispX buf => fillModule m reg 0 dispX buf) (List.replicate 8 0) =
      [(reg + 1) % 256, packRow (m.display 0 0 reg), 0, 0, 0, 0, 0, 0] := by
    rw [forLoop_one, fillModule_eq _ _ _ _ _ (by decide)]
    rfl
  have h2 : forLoop (1 + 1) (fun dispX buf => fillModule m reg 0 dispX buf) (List.replicate 8 0) =
      [(reg + 1) % 256, packRow (m.display 0 0 reg), (reg + 1) % 256, packRow (m.display 0 1 reg),
        0, 0, 0, 0] := by
    rw [forLoop_succ, h1, fillModule_eq _ _ _ _ _ (by simp)]
    rfl
  have h3 : forLoop (2 + 1) (fun dispX buf => fillModule m reg 0 dispX buf) (List.replicate 8 0) =
      [(reg + 1) % 256, packRow (m.display 0 0 reg), (reg + 1) % 256, packRow (m.display 0 1 reg),
        (reg + 1) % 256, packRow (m.display 0 2 reg), 0, 0] := by
    rw [forLoop_succ, h2, fillModule_eq _ _ _ _ _ (by simp)]
    rfl
  show forLoop 1 (fun dispY buf =>
    forLoop (3 + 1) (fun dispX buf => fillModule m reg dispY dispX buf) buf) (List.replicate 8 0) = _
  rw [forLoop_one, forLoop_succ, h3, fillModule_eq _ _ _ _ _ (by simp)]
  rfl

theorem testBit_le_one (b j : Nat) (hb : b ≤ 1) :
    b.testBit j = (decide (j = 0) && decide (b = 1)) := by
  interval_cases b
  · simp
  · cases j with
    | zero => simp
    | succ k => simp [Nat.testBit_succ]

theorem packLoop_testBit (row : Nat → Nat) (hrow : ∀ c, c < 8 → row c ≤ 1) (n : Nat) (hn : n ≤ 8)
    (i : Nat) :
    (forLoop n (fun col acc => (acc ||| (row (MATRIX_WIDTH - col - 1) <<< col)) % 256) 0).testBit i
      = (decide (i < n) && decide (row (7 - i) = 1)) := by
  induction n with
  | zero => simp [forLoop]
  | succ k ih =>
    rw [forLoop_succ]
    show ((forLoop k _ 0 ||| (row (MATRIX_WIDTH - k - 1) <<< k)) % 2 ^ 8).testBit i = _
    simp only [Nat.testBit_mod_two_pow, Nat.testBit_or, Nat.testBit_shiftLeft]
    rw [ih (by omega), testBit_le_one _ _ (hrow _ (by simp only [MATRIX_WIDTH]; omega))]
    by_cases hik : i = k
    · subst hik
      have : MATRIX_WIDTH - i - 1 = 7 - i := by simp only [MATRIX_WIDTH]; omega
      simp [this]
      omega
    · by_cases hlt : i < k
      · have h1 : i < k + 1 := by omega
        have h2 : ¬ (i ≥ k) := by omega
        have h3 : i < 8 := by omega
        simp [hlt, h1, h2, h3]
      · have h1 : ¬ (i < k + 1) := by omega
        have h4 : ¬ (i - k = 0) := by omega
        simp [hlt, h1, h4]

theorem packRow_bit (row : Nat → Nat) (hrow : ∀ c, c < 8 → row c ≤ 1) (col : Nat) (hcol : col < 8) :
    packRow row / 2 ^ col % 2 = row (7 - col) := by
  have h := packLoop_testBit row hrow 8 (le_refl 8) col
  rw [Nat.testBit_to_div_mod] at h
  have hr := hrow (7 - col) (by omega)
  have hmod : packRow row / 2 ^ col % 2 < 2 := Nat.mod_lt _ (by norm_num)
  unfold packRow
  simp only [MATRIX_WIDTH] at h ⊢
  simp only [hcol, decide_True, Bool.true_and, decide_eq_decide] at h
  simp only [packRow, MATRIX_WIDTH] at hmod
  omega

theorem fillFrame_congr (m m' : MatrixState) (h : m'.display = m.display) (reg : Nat) :
    fillFrame m' reg = fillFrame m reg := by
  rw [fillFrame_eq, fillFrame_eq, h]

theorem fillFrame_length (m : MatrixState) (reg : Nat) : (fillFrame m reg).length = 8 := by
  rw [fillFrame_eq]
  rfl

theorem applyLoop_eq (rw : Nat → List Nat → Int) (m : MatrixState) (n : Nat) :
    forLoop n (fun reg (s : List (List Nat) × MatrixState) =>
      let bus := s.1
      let matrix := s.2
      if matrix.changes reg ≠ 0 then
        let buf := fillFrame matrix reg
        let bus := spiSendData rw bus buf (2 * displayCount)
        (bus, { matrix with changes := fun r => if r = reg then 0 else matrix.changes r })
      else (bus, matrix)) ([], m)
    = (((List.range n).filter (fun r => decide (m.changes r ≠ 0))).map (fillFrame m),
        { display := m.display, changes := fun r => if r < n then 0 else m.changes r }) := by
  induction n with
  | zero =>
    simp [forLoop]
  | succ k ih =>
    rw [forLoop_succ, ih]
    simp only [Nat.lt_irrefl, if_false]
    rw [List.range_succ, List.filter_append, List.map_append]
    by_cases hc : m.changes k = 0
    · simp only [hc, ne_eq, not_true_eq_false, if_false, decide_False, List.filter_cons,
        List.filter_nil, List.map_nil, List.append_nil, Prod.mk.injEq, true_and,
        MatrixState.mk.injEq]
      refine ⟨by simp, ?_⟩
      funext r
      by_cases h1 : r < k
      · simp [h1, Nat.lt_succ_of_lt h1]
      · by_cases h2 : r = k
        · simp [h2, hc]
        · have h3 : ¬ r < k + 1 := by omega
          simp [h1, h3]
    · simp only [hc, ne_eq, not_false_eq_true, if_true, decide_True, List.filter_cons,
        List.filter_nil, List.map_cons, List.map_nil, Prod.mk.injEq, MatrixState.mk.injEq,
        true_and, spiSendData]
      constructor
      · rw [List.take_of_length_le (by rw [fillFrame_length]; decide),
          fillFrame_congr m
            { display := m.display, changes := fun r => if r < k then 0 else m.changes r } rfl]
      · funext r
        by_cases h1 : r < k
        · have h2 : r ≠ k := by omega
          simp [h1, h2, Nat.lt_succ_of_lt h1]
        · by_cases h2 : r = k
          · simp [h2]
          · have h3 : ¬ r < k + 1 := by omega
            simp [h1, h2, h3]

theorem applyUpdates_eq (rw : Nat → List Nat → Int) (m : MatrixState) :
    applyUpdates rw m =
      (((List.range 8).filter (fun r => decide (m.changes r ≠ 0))).map (fillFrame m),
        { display := m.display, changes := fun r => if r < 8 then 0 else m.changes r }) :=
  applyLoop_eq rw m 8

/-! ## Pixel writes and flushing: the properties -/

/-- C1: for every grid state, every x in [0, GRID_WIDTH), every y in [0, GRID_HEIGHT) and
every value v, after setPixel(x, y, v) the cell of logical coordinate (x, y), that is module
[y/8][x/8], local row y%8, local column x%8, holds v. -/
theorem C1_setPixel_read_back (m : MatrixState) (x y v : Nat)
    (_hx : x < GRID_WIDTH) (_hy : y < GRID_HEIGHT) :
    (setPixel m x y v).display (y / MATRIX_HEIGHT) (x / MATRIX_WIDTH) (y % MATRIX_HEIGHT)
        (x % MATRIX_WIDTH) = v ∧
      getPixel (setPixel m x y v) x y = v := by
  have h := getPixel_setPixel m x y v x y
  rw [if_pos ⟨rfl, rfl⟩] at h
  exact ⟨h, h⟩

theorem C1_setPixel_read_back_witness :
    (31 < GRID_WIDTH ∧ 7 < GRID_HEIGHT) ∧
      ((setPixel zeroState 31 7 1).display (7 / MATRIX_HEIGHT) (31 / MATRIX_WIDTH)
          (7 % MATRIX_HEIGHT) (31 % MATRIX_WIDTH) = 1 ∧
        getPixel (setPixel zeroState 31 7 1) 31 7 = 1) :=
  ⟨⟨by decide, by decide⟩, C1_setPixel_read_back zeroState 31 7 1 (by decide) (by decide)⟩

theorem mem_applyUpdates (rw : Nat → List Nat → Int) (m : MatrixState) (frame : List Nat) :
    frame ∈ (applyUpdates rw m).1 ↔
      ∃ row, row < 8 ∧ m.changes row ≠ 0 ∧ frame = fillFrame m row := by
  rw [applyUpdates_eq]
  simp only [List.mem_map, List.mem_filter, List.mem_range, decide_eq_true_eq]
  constructor
  · rintro ⟨row, ⟨h1, h2⟩, h3⟩
    exact ⟨row, h1, h2, h3.symm⟩
  · rintro ⟨row, h1, h2, h3⟩
    exact ⟨row, ⟨h1, h2⟩, h3.symm⟩

theorem fillFrame_addr (m : MatrixState) (row dispY dispX : Nat) (hrow : row < 8)
    (hY : dispY < DISPLAY_Y) (hX : dispX < DISPLAY_X) :
    (fillFrame m row).getD ((dispY * DISPLAY_X + dispX) * 2) 0 = row + 1 := by
  rw [fillFrame_eq]
  have hm : (row + 1) % 256 = row + 1 := Nat.mod_eq_of_lt (by omega)
  simp only [DISPLAY_X, DISPLAY_Y] at hY hX ⊢
  interval_cases dispY
  interval_cases dispX <;> simp [hm]

theorem fillFrame_value (m : MatrixState) (row dispY dispX : Nat)
    (hY : dispY < DISPLAY_Y) (hX : dispX < DISPLAY_X) :
    (fillFrame m row).getD ((dispY * DISPLAY_X + dispX) * 2 + 1) 0 =
      packRow (m.display dispY dispX row) := by
  rw [fillFrame_eq]
  simp only [DISPLAY_X, DISPLAY_Y] at hY hX ⊢
  interval_cases dispY
  interval_cases dispX <;> simp

/-- C2: for every grid whose pixel values are all 0 or 1, every dirty local row and every
module, applyUpdates sends a frame addressed to that row, and in every sent frame whose
address byte for the module is row + 1 the module's value byte has, for every col in 0..7,
bit col (bit 0 least significant) equal to the module's pixel at local row `row`, local
column 7 - col. -/
theorem C2_value_byte_bits (rw : Nat → List Nat → Int) (m : MatrixState)
    (hbin : ∀ dY dX lY lX, dY < DISPLAY_Y → dX < DISPLAY_X → lY < MATRIX_HEIGHT →
      lX < MATRIX_WIDTH → m.display dY dX lY lX ≤ 1)
    (row : Nat) (hrow : row < MATRIX_HEIGHT) (hdirty : m.changes row ≠ 0)
    (dispY dispX : Nat) (hY : dispY < DISPLAY_Y) (hX : dispX < DISPLAY_X) :
    (∃ frame ∈ (applyUpdates rw m).1,
        frame.getD ((dispY * DISPLAY_X + dispX) * 2) 0 = row + 1) ∧
      ∀ frame ∈ (applyUpdates rw m).1,
        frame.getD ((dispY * DISPLAY_X + dispX) * 2) 0 = row + 1 →
        ∀ col, col < MATRIX_WIDTH →
          frame.getD ((dispY * DISPLAY_X + dispX) * 2 + 1) 0 / 2 ^ col % 2 =
            m.display dispY dispX row (MATRIX_WIDTH - 1 - col) := by
  constructor
  · exact ⟨fillFrame m row, (mem_applyUpdates rw m _).2 ⟨row, hrow, hdirty, rfl⟩,
      fillFrame_addr m row dispY dispX hrow hY hX⟩
  · intro frame hmem haddr col hcol
    obtain ⟨r, hr, _, hframe⟩ := (mem_applyUpdates rw m frame).1 hmem
    rw [hframe, fillFrame_addr m r dispY dispX hr hY hX] at haddr
    have hrr : r = row := by omega
    subst hrr
    rw [hframe, fillFrame_value m r dispY dispX hY hX]
    have hb : ∀ c, c < 8 → m.display dispY dispX r c ≤ 1 :=
      fun c hc => hbin dispY dispX r c hY hX hr hc
    have := packRow_bit (m.display dispY dispX r) hb col hcol
    simp only [MATRIX_WIDTH] at hcol ⊢
    rw [this]

theorem exampleState_binary (dY dX lY lX : Nat) : exampleState.display dY dX lY lX ≤ 1 := by
  unfold exampleState
  rw [setPixel_display]
  split_ifs
  · exact le_refl 1
  · exact Nat.zero_le 1

theorem C2_value_byte_bits_witness :
    ((∀ dY dX lY lX, dY < DISPLAY_Y → dX < DISPLAY_X → lY < MATRIX_HEIGHT →
        lX < MATRIX_WIDTH → exampleState.display dY dX lY lX ≤ 1) ∧
      7 < MATRIX_HEIGHT ∧ exampleState.changes 7 ≠ 0 ∧ 0 < DISPLAY_Y ∧ 3 < DISPLAY_X) ∧
    ((∃ frame ∈ (applyUpdates okStatus exampleState).1,
        frame.getD ((0 * DISPLAY_X + 3) * 2) 0 = 7 + 1) ∧
      ∀ frame ∈ (applyUpdates okStatus exampleState).1,
        frame.getD ((0 * DISPLAY_X + 3) * 2) 0 = 7 + 1 →
        ∀ col, col < MATRIX_WIDTH →
          frame.getD ((0 * DISPLAY_X + 3) * 2 + 1) 0 / 2 ^ col % 2 =
            exampleState.display 0 3 7 (MATRIX_WIDTH - 1 - col)) :=
  ⟨⟨fun dY dX lY lX _ _ _ _ => exampleState_binary dY dX lY lX, by decide, by decide, by decide,
      by decide⟩,
    C2_value_byte_bits okStatus exampleState
      (fun dY dX lY lX _ _ _ _ => exampleState_binary dY dX lY lX) 7 (by decide) (by decide) 0 3
      (by decide) (by decide)⟩

/-- C3: every frame that applyUpdates hands to the transport has length exactly
2 × displayCount = 2 × DISPLAY_X × DISPLAY_Y = 8 bytes, however many rows are dirty, and it
is the frame of a dirty local row `row`: for every module, at flat index
i = dispY × DISPLAY_X + dispX in row-major order, the byte at offset 2·i is the register
address row + 1, a value in 1..8 and never the no-op address 0. Conversely every dirty local
row has such a frame among the frames sent. -/
theorem C3_frame_layout (rw : Nat → List Nat → Int) (m : MatrixState) :
    2 * displayCount = 2 * DISPLAY_X * DISPLAY_Y ∧ 2 * displayCount = 8 ∧
      (∀ frame ∈ (applyUpdates rw m).1,
        frame.length = 2 * displayCount ∧
          ∃ row, row < MATRIX_HEIGHT ∧ m.changes row ≠ 0 ∧
            1 ≤ row + 1 ∧ row + 1 ≤ 8 ∧ row + 1 ≠ MAX7219_REG_NOOP ∧
            ∀ dispY dispX, dispY < DISPLAY_Y → dispX < DISPLAY_X →
              frame.getD (2 * (dispY * DISPLAY_X + dispX)) 0 = row + 1) ∧
      (∀ row, row < MATRIX_HEIGHT → m.changes row ≠ 0 →
        ∃ frame ∈ (applyUpdates rw m).1,
          ∀ dispY dispX, dispY < DISPLAY_Y → dispX < DISPLAY_X →
            frame.getD (2 * (dispY * DISPLAY_X + dispX)) 0 = row + 1) := by
  refine ⟨rfl, rfl, ?_, ?_⟩
  · intro frame hmem
    obtain ⟨row, hrow, hdirty, hframe⟩ := (mem_applyUpdates rw m frame).1 hmem
    refine ⟨by rw [hframe, fillFrame_length]; rfl, row, hrow, hdirty, by omega, by omega,
      by simp, ?_⟩
    intro dispY dispX hY hX
    rw [hframe, Nat.mul_comm 2, fillFrame_addr m row dispY dispX hrow hY hX]
  · intro row hrow hdirty
    refine ⟨fillFrame m row, (mem_applyUpdates rw m _).2 ⟨row, hrow, hdirty, rfl⟩, ?_⟩
    intro dispY dispX hY hX
    rw [Nat.mul_comm 2, fillFrame_addr m row dispY dispX hrow hY hX]

/-- C4: for every grid state, applyUpdates sends exactly one frame for each local row whose
dirty flag is set and none for a row whose flag is clear, in strictly ascending local-row
order: the sequence of address bytes of the sent frames is the increasing list of row + 1
over the dirty rows 0..7. -/
theorem C4_one_frame_per_dirty_row (rw : Nat → List Nat → Int) (m : MatrixState) :
    (applyUpdates rw m).1.map (fun frame => frame.getD 0 0) =
        ((List.range MATRIX_HEIGHT).filter (fun row => decide (m.changes row ≠ 0))).map
          (fun row => row + 1) ∧
      (applyUpdates rw m).1.length =
        ((List.range MATRIX_HEIGHT).filter (fun row => decide (m.changes row ≠ 0))).length ∧
      ((applyUpdates rw m).1.map (fun frame => frame.getD 0 0)).Pairwise (fun a b => a < b) := by
  have hmap : (applyUpdates rw m).1.map (fun frame => frame.getD 0 0) =
      ((List.range MATRIX_HEIGHT).filter (fun row => decide (m.changes row ≠ 0))).map
        (fun row => row + 1) := by
    rw [applyUpdates_eq, List.map_map]
    apply List.map_congr_left
    intro row hmem
    have hrow : row < 8 := List.mem_range.1 (List.mem_filter.1 hmem).1
    have haddr := fillFrame_addr m row 0 0 hrow (by decide) (by decide)
    simp only [Nat.zero_mul, Nat.add_zero] at haddr
    simp only [Function.comp_apply]
    exact haddr
  refine ⟨hmap, ?_, ?_⟩
  · rw [applyUpdates_eq, List.length_map]
  · rw [hmap]
    apply List.Pairwise.map (fun row => row + 1) (fun a b hab => Nat.succ_lt_succ hab)
    exact List.Pairwise.filter _ (List.pairwise_lt_range _)

/-- C5: for every grid state and whatever status the transport reports, the state after
applyUpdates is the input state with all eight dirty flags cleared: every pixel of every
module is unchanged and the flag of every row 0..7 is 0; a second applyUpdates immediately
afterwards sends no frame. -/
theorem C5_flush_clears_flags (rw : Nat → List Nat → Int) (m : MatrixState) :
    (applyUpdates rw m).2 =
        { display := m.display
          changes := fun row => if row < MATRIX_HEIGHT then 0 else m.changes row } ∧
      (applyUpdates rw m).2.display = m.display ∧
      (∀ row, row < MATRIX_HEIGHT → (applyUpdates rw m).2.changes row = 0) ∧
      (applyUpdates rw (applyUpdates rw m).2).1 = [] := by
  refine ⟨by rw [applyUpdates_eq], by rw [applyUpdates_eq], ?_, ?_⟩
  · intro row hrow
    rw [applyUpdates_eq]
    exact if_pos hrow
  · rw [applyUpdates_eq rw (applyUpdates rw m).2, applyUpdates_eq rw m]
    simp only [List.map_eq_nil_iff, List.filter_eq_nil_iff, List.mem_range, decide_eq_true_eq]
    intro row hrow
    simp [hrow]

/-- C6: setPixel is idempotent and marks dirty only on a real change. For every state and
in-range (x, y): if the stored pixel already equals v, setPixel(x, y, v) returns the state
unchanged; setPixel(x, y, v) applied twice equals applying it once; and if the flag of row
y%8 is cleared after the first call (directly, or by applyUpdates), the second call leaves
it clear. -/
theorem C6_setPixel_idempotent (rw : Nat → List Nat → Int) (m : MatrixState) (x y v : Nat)
    (_hx : x < GRID_WIDTH) (_hy : y < GRID_HEIGHT) :
    (getPixel m x y = v → setPixel m x y v = m) ∧
      setPixel (setPixel m x y v) x y v = setPixel m x y v ∧
      (∀ cleared : MatrixState, cleared.display = (setPixel m x y v).display →
        cleared.changes (y % MATRIX_HEIGHT) = 0 →
        setPixel cleared x y v = cleared ∧
          (setPixel cleared x y v).changes (y % MATRIX_HEIGHT) = 0) ∧
      (setPixel (applyUpdates rw (setPixel m x y v)).2 x y v).changes (y % MATRIX_HEIGHT) = 0 := by
  have hread : getPixel (setPixel m x y v) x y = v := by
    rw [getPixel_setPixel, if_pos ⟨rfl, rfl⟩]
  have hcl : ∀ cleared : MatrixState, cleared.display = (setPixel m x y v).display →
      setPixel cleared x y v = cleared := by
    intro cleared hd
    apply setPixel_of_eq
    have : getPixel cleared x y = getPixel (setPixel m x y v) x y := by
      unfold getPixel
      rw [hd]
    rw [this, hread]
  refine ⟨setPixel_of_eq m x y v, setPixel_of_eq _ x y v hread, ?_, ?_⟩
  · intro cleared hd hc
    rw [hcl cleared hd]
    exact ⟨rfl, hc⟩
  · rw [hcl _ (by rw [applyUpdates_eq]), applyUpdates_eq]
    exact if_pos (Nat.mod_lt _ (by decide))

theorem C6_setPixel_idempotent_witness :
    (31 < GRID_WIDTH ∧ 7 < GRID_HEIGHT) ∧
    ((getPixel zeroState 31 7 = 1 → setPixel zeroState 31 7 1 = zeroState) ∧
      setPixel (setPixel zeroState 31 7 1) 31 7 1 = setPixel zeroState 31 7 1 ∧
      (∀ cleared : MatrixState, cleared.display = (setPixel zeroState 31 7 1).display →
        cleared.changes (7 % MATRIX_HEIGHT) = 0 →
        setPixel cleared 31 7 1 = cleared ∧
          (setPixel cleared 31 7 1).changes (7 % MATRIX_HEIGHT) = 0) ∧
      (setPixel (applyUpdates okStatus (setPixel zeroState 31 7 1)).2 31 7 1).changes
        (7 % MATRIX_HEIGHT) = 0) :=
  ⟨⟨by decide, by decide⟩, C6_setPixel_idempotent okStatus zeroState 31 7 1 (by decide) (by decide)⟩

/-- C7: for every state and in-range (x, y) whose stored value differs from v,
setPixel(x, y, v) changes exactly one pixel cell, the one at module row y/8, module column
x/8, local row y%8, local column x%8, which becomes v, and sets exactly the dirty flag of
local row y%8; every other cell, every other flag, and in particular the pixel at any other
in-range logical coordinate, is unchanged. -/
theorem C7_setPixel_frame (m : MatrixState) (x y v : Nat)
    (_hx : x < GRID_WIDTH) (_hy : y < GRID_HEIGHT) (hne : getPixel m x y ≠ v) :
    (∀ dY dX lY lX, (setPixel m x y v).display dY dX lY lX =
        if dY = y / MATRIX_HEIGHT ∧ dX = x / MATRIX_WIDTH ∧ lY = y % MATRIX_HEIGHT ∧
            lX = x % MATRIX_WIDTH then v
        else m.display dY dX lY lX) ∧
      (setPixel m x y v).display (y / MATRIX_HEIGHT) (x / MATRIX_WIDTH) (y % MATRIX_HEIGHT)
          (x % MATRIX_WIDTH) ≠
        m.display (y / MATRIX_HEIGHT) (x / MATRIX_WIDTH) (y % MATRIX_HEIGHT) (x % MATRIX_WIDTH) ∧
      (∀ reg, (setPixel m x y v).changes reg =
        if reg = y % MATRIX_HEIGHT then 1 else m.changes reg) ∧
      (∀ x' y', x' < GRID_WIDTH → y' < GRID_HEIGHT → (x', y') ≠ (x, y) →
        getPixel (setPixel m x y v) x' y' = getPixel m x' y') := by
  refine ⟨fun dY dX lY lX => setPixel_display m x y v dY dX lY lX, ?_, ?_, ?_⟩
  · have h := getPixel_setPixel m x y v x y
    rw [if_pos ⟨rfl, rfl⟩] at h
    unfold getPixel at h hne
    rw [h]
    exact fun heq => hne heq.symm
  · intro reg
    rw [setPixel_changes]
    by_cases hr : reg = y % 8
    · rw [if_pos ⟨hr, hne⟩, if_pos hr]
    · rw [if_neg (fun h => hr h.1), if_neg hr]
  · intro x' y' _ _ hxy
    rw [getPixel_setPixel, if_neg]
    rintro ⟨rfl, rfl⟩
    exact hxy rfl

theorem C7_setPixel_frame_witness :
    (31 < GRID_WIDTH ∧ 7 < GRID_HEIGHT ∧ getPixel zeroState 31 7 ≠ 1) ∧
    ((∀ dY dX lY lX, (setPixel zeroState 31 7 1).display dY dX lY lX =
        if dY = 7 / MATRIX_HEIGHT ∧ dX = 31 / MATRIX_WIDTH ∧ lY = 7 % MATRIX_HEIGHT ∧
            lX = 31 % MATRIX_WIDTH then 1
        else zeroState.display dY dX lY lX) ∧
      (setPixel zeroState 31 7 1).display (7 / MATRIX_HEIGHT) (31 / MATRIX_WIDTH)
          (7 % MATRIX_HEIGHT) (31 % MATRIX_WIDTH) ≠
        zeroState.display (7 / MATRIX_HEIGHT) (31 / MATRIX_WIDTH) (7 % MATRIX_HEIGHT)
          (31 % MATRIX_WIDTH) ∧
      (∀ reg, (setPixel zeroState 31 7 1).changes reg =
        if reg = 7 % MATRIX_HEIGHT then 1 else zeroState.changes reg) ∧
      (∀ x' y', x' < GRID_WIDTH → y' < GRID_HEIGHT → (x', y') ≠ (31, 7) →
        getPixel (setPixel zeroState 31 7 1) x' y' = getPixel zeroState x' y')) :=
  ⟨⟨by decide, by decide, by decide⟩,
    C7_setPixel_frame zeroState 31 7 1 (by decide) (by decide) (by decide)⟩

/-! ## Bitmap import: auxiliary lemmas and properties -/

theorem forLoopM_succ {σ : Type} (n : Nat) (body : Nat → σ → Option σ) (s : σ) :
    forLoopM (n + 1) body s = (forLoopM n body s).bind (body n) := rfl

theorem forLoopM_eq_some {σ : Type} (n : Nat) (body : Nat → σ → Option σ) (g : Nat → σ → σ)
    (h : ∀ i, i < n → ∀ s, body i s = some (g i s)) (s : σ) :
    forLoopM n body s = some (forLoop n g s) := by
  induction n with
  | zero => rfl
  | succ k ih =>
    rw [forLoopM_succ, ih (fun i hi => h i (Nat.lt_succ_of_lt hi)), Option.some_bind,
      h k (Nat.lt_succ_self k), forLoop_succ]

theorem getPixel_rowLoop (f : Nat → Nat) (y0 n : Nat) (m : MatrixState) (x y : Nat) :
    getPixel (forLoop n (fun x m => setPixel m x y0 (f x)) m) x y =
      if x < n ∧ y = y0 then f x else getPixel m x y := by
  induction n with
  | zero => simp [forLoop]
  | succ k ih =>
    rw [forLoop_succ, getPixel_setPixel, ih]
    by_cases hy : y = y0
    · by_cases hx : x = k
      · subst hx
        simp [hy]
      · by_cases hlt : x < k
        · have : x < k + 1 := by omega
          simp [hx, hy, hlt, this]
        · have : ¬ x < k + 1 := by omega
          simp [hx, hy, hlt, this]
    · simp [hy]

theorem getPixel_gridLoop (f : Nat → Nat → Nat) (w n : Nat) (m : MatrixState) (x y : Nat) :
    getPixel (forLoop n (fun y m => forLoop w (fun x m => setPixel m x y (f x y)) m) m) x y =
      if x < w ∧ y < n then f x y else getPixel m x y := by
  induction n with
  | zero => simp [forLoop]
  | succ k ih =>
    rw [forLoop_succ, getPixel_rowLoop (fun x => f x k), ih]
    by_cases hx : x < w
    · by_cases hy : y = k
      · subst hy
        simp [hx]
      · by_cases hlt : y < k
        · have : y < k + 1 := by omega
          simp [hx, hy, hlt, this]
        · have : ¬ y < k + 1 := by omega
          simp [hx, hy, hlt, this]
    · simp [hx]

theorem getD_take (l : List Nat) (n i : Nat) (h : i < n) :
    (l.take n).getD i 0 = l.getD i 0 := by
  simp only [List.getD_eq_getElem?_getD, List.getElem?_take, h, if_true]

theorem getD_lt (l : List Nat) (hl : ∀ b ∈ l, b < 256) (i : Nat) : l.getD i 0 < 256 := by
  rw [List.getD_eq_getElem?_getD]
  by_cases h : i < l.length
  · rw [List.getElem?_eq_getElem h]
    exact hl _ (List.getElem_mem _)
  · rw [List.getElem?_eq_none (by omega)]
    decide

theorem readU32_take (l : List Nat) (n i : Nat) (h : i + 3 < n) :
    readU32 (l.take n) i = readU32 l i := by
  unfold readU32
  rw [getD_take l n i (by omega), getD_take l n (i + 1) (by omega),
    getD_take l n (i + 2) (by omega), getD_take l n (i + 3) (by omega)]

theorem readU32_lt (l : List Nat) (hl : ∀ b ∈ l, b < 256) (i : Nat) :
    readU32 l i < 4294967296 := by
  unfold readU32
  have h0 := getD_lt l hl i
  have h1 := getD_lt l hl (i + 1)
  have h2 := getD_lt l hl (i + 2)
  have h3 := getD_lt l hl (i + 3)
  omega

theorem sizeSub_eq (host : Host) (a b : Nat) (ha : a < 2 ^ host.sizeBits) (hb : b ≤ a) :
    host.sizeSub a b = a - b := by
  unfold Host.sizeSub
  rw [Nat.mod_eq_of_lt (lt_of_le_of_lt hb ha)]
  have : a + 2 ^ host.sizeBits - b = (a - b) + 2 ^ host.sizeBits := by omega
  rw [this, Nat.add_mod_right, Nat.mod_eq_of_lt (by omega)]

theorem two_pow_32_le (host : Host) (h : 32 ≤ host.sizeBits) :
    4294967296 ≤ 2 ^ host.sizeBits := by
  have : (2 : Nat) ^ 32 ≤ 2 ^ host.sizeBits := Nat.pow_le_pow_right (by decide) h
  simpa using this

theorem parseFileHeader_take (stdin : List Nat) :
    parseFileHeader (stdin.take 14) = parseFileHeader stdin := by
  unfold parseFileHeader readU16
  rw [readU32_take _ _ _ (by decide), readU32_take _ _ _ (by decide),
    getD_take _ _ _ (by decide), getD_take _ _ _ (by decide), getD_take _ _ _ (by decide),
    getD_take _ _ _ (by decide), getD_take _ _ _ (by decide), getD_take _ _ _ (by decide)]

theorem parseInfoHeader_take (l : List Nat) (n : Nat) (h : 24 ≤ n) :
    parseInfoHeader (l.take n) = parseInfoHeader l := by
  unfold parseInfoHeader readU16
  rw [readU32_take _ _ _ (by omega), readU32_take _ _ _ (by omega),
    readU32_take _ _ _ (by omega), readU32_take _ _ _ (by omega),
    readU32_take _ _ _ (by omega),
    getD_take _ _ _ (by omega), getD_take _ _ _ (by omega), getD_take _ _ _ (by omega),
    getD_take _ _ _ (by omega)]

theorem readBMP_short (host : Host) (stdin : List Nat) (m : MatrixState)
    (h : stdin.length < 14) : readBMP host stdin m = some (BMPExit.headerReadError, m) := by
  unfold readBMP
  rw [if_pos h]

theorem readBMP_badSignature (host : Host) (stdin : List Nat) (m : MatrixState)
    (hlen : 14 ≤ stdin.length)
    (hsig : (parseFileHeader stdin).signature0 ≠ 'B'.toNat ∨
      (parseFileHeader stdin).signature1 ≠ 'M'.toNat) :
    readBMP host stdin m = some (BMPExit.badSignature, m) := by
  unfold readBMP
  rw [if_neg (by simp only [sizeofBMPFileHeader]; omega)]
  simp only []
  rw [parseFileHeader_take, if_pos hsig]

/-- The state of `readBMP` after both reads succeeded. -/
theorem readBMP_after_reads (host : Host) (stdin : List Nat) (m : MatrixState)
    (hbytes : ∀ b ∈ stdin, b < 256) (hbits : 32 ≤ host.sizeBits)
    (hsig : (parseFileHeader stdin).signature0 = 'B'.toNat ∧
      (parseFileHeader stdin).signature1 = 'M'.toNat)
    (hsize : 38 ≤ (parseFileHeader stdin).fileSize)
    (hstream : (parseFileHeader stdin).fileSize ≤ stdin.length)
    (hmalloc : host.mallocOk ((parseFileHeader stdin).fileSize - 14) = true) :
    readBMP host stdin m =
      if (parseInfoHeader (stdin.drop 14)).width ≠ GRID_WIDTH ∨
          (parseInfoHeader (stdin.drop 14)).height ≠ GRID_HEIGHT then
        some (BMPExit.dimensionMismatch, m)
      else
        (forLoopM GRID_HEIGHT (fun y matrix =>
          forLoopM GRID_WIDTH (fun x matrix =>
            match ((stdin.drop 14).take ((parseFileHeader stdin).fileSize - 14))[
                host.sizeSub (parseFileHeader stdin).image_data_address 14 +
                  ((GRID_HEIGHT - 1 - y) * rowSize (parseInfoHeader (stdin.drop 14)).width
                    + x / 8) % 4294967296]? with
            | none => none
            | some byte => some (setPixel matrix x y ((byte >>> (7 - x % 8) &&& 1) % 256)))
            matrix) m).map (fun matrix => (BMPExit.loaded, matrix)) := by
  have hlt : (parseFileHeader stdin).fileSize < 2 ^ host.sizeBits :=
    lt_of_lt_of_le (readU32_lt stdin hbytes 2) (two_pow_32_le host hbits)
  have hsub : host.sizeSub (parseFileHeader stdin).fileSize 14 =
      (parseFileHeader stdin).fileSize - 14 := sizeSub_eq host _ 14 hlt (by omega)
  unfold readBMP
  rw [if_neg (by simp only [sizeofBMPFileHeader]; omega)]
  simp only []
  rw [parseFileHeader_take, if_neg (by simp [hsig.1, hsig.2])]
  simp only [sizeofBMPFileHeader, sizeofBMPInfoHeader]
  rw [hsub, if_neg (by simp [hmalloc]), if_neg (by simp only [List.length_drop]; omega),
    if_neg (by omega), parseInfoHeader_take _ _ (by omega)]

theorem fileData_getElem? (stdin : List Nat) (n i : Nat) (hi : i < n)
    (hn : 14 + n ≤ stdin.length) :
    ((stdin.drop 14).take n)[i]? = some (stdin.getD (14 + i) 0) := by
  rw [List.getElem?_take, if_pos hi, List.getElem?_drop, List.getD_eq_getElem?_getD,
    List.getElem?_eq_getElem (by omega)]
  rfl

theorem extract_bit (byte k : Nat) : ((byte >>> k) &&& 1) % 256 = byte / 2 ^ k % 2 := by
  rw [Nat.shiftRight_eq_div_pow, Nat.and_one_is_mod]
  exact Nat.mod_eq_of_lt (lt_of_lt_of_le (Nat.mod_lt _ (by decide)) (by decide))

theorem rowSize_grid : rowSize (GRID_WIDTH : Int) = 4 := by decide

theorem readBMP_loaded (host : Host) (stdin : List Nat) (m : MatrixState)
    (hbytes : ∀ b ∈ stdin, b < 256) (hbits : 32 ≤ host.sizeBits)
    (hsig : (parseFileHeader stdin).signature0 = 'B'.toNat ∧
      (parseFileHeader stdin).signature1 = 'M'.toNat)
    (hstream : (parseFileHeader stdin).fileSize ≤ stdin.length)
    (hmalloc : host.mallocOk ((parseFileHeader stdin).fileSize - 14) = true)
    (hdim : (parseInfoHeader (stdin.drop 14)).width = GRID_WIDTH ∧
      (parseInfoHeader (stdin.drop 14)).height = GRID_HEIGHT)
    (hoff : 14 ≤ (parseFileHeader stdin).image_data_address)
    (hraster : (parseFileHeader stdin).image_data_address + GRID_HEIGHT * 4 ≤
      (parseFileHeader stdin).fileSize) :
    readBMP host stdin m = some (BMPExit.loaded,
      forLoop GRID_HEIGHT (fun y matrix =>
        forLoop GRID_WIDTH (fun x matrix =>
          setPixel matrix x y
            (stdin.getD ((parseFileHeader stdin).image_data_address + (GRID_HEIGHT - 1 - y) * 4
              + x / 8) 0 / 2 ^ (7 - x % 8) % 2)) matrix) m) := by
  have hG : GRID_HEIGHT * 4 = 32 := rfl
  rw [hG] at hraster
  rw [readBMP_after_reads host stdin m hbytes hbits hsig (by omega) hstream hmalloc,
    if_neg (by simp [hdim.1, hdim.2]), hdim.1, rowSize_grid]
  have hlt : (parseFileHeader stdin).image_data_address < 2 ^ host.sizeBits :=
    lt_of_lt_of_le (readU32_lt stdin hbytes 10) (two_pow_32_le host hbits)
  rw [sizeSub_eq host _ 14 hlt hoff]
  rw [forLoopM_eq_some GRID_HEIGHT _ (fun y matrix =>
        forLoop GRID_WIDTH (fun x matrix =>
          setPixel matrix x y
            (stdin.getD ((parseFileHeader stdin).image_data_address + (GRID_HEIGHT - 1 - y) * 4
              + x / 8) 0 / 2 ^ (7 - x % 8) % 2)) matrix)]
  · rfl
  · intro y hy s
    apply forLoopM_eq_some
    intro x hx s'
    have hG8 : GRID_HEIGHT = 8 := rfl
    have hG32 : GRID_WIDTH = 32 := rfl
    rw [hG8] at hy ⊢
    rw [hG32] at hx
    have hsmall : ((8 - 1 - y) * 4 + x / 8) % 4294967296 = (8 - 1 - y) * 4 + x / 8 :=
      Nat.mod_eq_of_lt (by omega)
    have hidx : 14 + ((parseFileHeader stdin).image_data_address - 14
        + ((8 - 1 - y) * 4 + x / 8)) =
        (parseFileHeader stdin).image_data_address + (8 - 1 - y) * 4 + x / 8 := by omega
    rw [hsmall, fileData_getElem? stdin _ _ (by omega) (by omega), hidx]
    simp only []
    rw [extract_bit]

/-- C8: for every well-formed input (a byte stream with signature 'B','M', holding the
declared file size, width = GRID_WIDTH, height = GRID_HEIGHT, and all 8 × 4 raster bytes
lying between the declared data offset, at least 14, and the declared file size) on a host
where the allocation succeeds, readBMP runs to its end and afterwards every logical pixel
(x, y) equals bit 7 - (x mod 8) of the stream byte at data offset +
(GRID_HEIGHT - 1 - y) × rowStride + x/8, with rowStride = 4; in particular pixel (0, 0) is
bit 7 of the first byte of raster row GRID_HEIGHT - 1. -/
theorem C8_readBMP_decodes (host : Host) (stdin : List Nat) (m : MatrixState)
    (hbytes : ∀ b ∈ stdin, b < 256) (hbits : 32 ≤ host.sizeBits)
    (hsig : (parseFileHeader stdin).signature0 = 'B'.toNat ∧
      (parseFileHeader stdin).signature1 = 'M'.toNat)
    (hstream : (parseFileHeader stdin).fileSize ≤ stdin.length)
    (hmalloc : host.mallocOk ((parseFileHeader stdin).fileSize - sizeofBMPFileHeader) = true)
    (hdim : (parseInfoHeader (stdin.drop sizeofBMPFileHeader)).width = GRID_WIDTH ∧
      (parseInfoHeader (stdin.drop sizeofBMPFileHeader)).height = GRID_HEIGHT)
    (hoff : sizeofBMPFileHeader ≤ (parseFileHeader stdin).image_data_address)
    (hraster : (parseFileHeader stdin).image_data_address + GRID_HEIGHT * rowSize GRID_WIDTH ≤
      (parseFileHeader stdin).fileSize) :
    ∃ m', readBMP host stdin m = some (BMPExit.loaded, m') ∧
      rowSize (parseInfoHeader (stdin.drop sizeofBMPFileHeader)).width = 4 ∧
      (∀ x y, x < GRID_WIDTH → y < GRID_HEIGHT →
        getPixel m' x y =
          stdin.getD ((parseFileHeader stdin).image_data_address
            + (GRID_HEIGHT - 1 - y) * rowSize (parseInfoHeader (stdin.drop sizeofBMPFileHeader)).width
            + x / 8) 0 / 2 ^ (7 - x % 8) % 2) ∧
      getPixel m' 0 0 =
        stdin.getD ((parseFileHeader stdin).image_data_address
          + (GRID_HEIGHT - 1) * rowSize (parseInfoHeader (stdin.drop sizeofBMPFileHeader)).width)
          0 / 2 ^ 7 % 2 := by
  rw [rowSize_grid] at hraster
  have hpix : ∀ x y, x < GRID_WIDTH → y < GRID_HEIGHT →
      getPixel (forLoop GRID_HEIGHT (fun y matrix =>
        forLoop GRID_WIDTH (fun x matrix =>
          setPixel matrix x y
            (stdin.getD ((parseFileHeader stdin).image_data_address + (GRID_HEIGHT - 1 - y) * 4
              + x / 8) 0 / 2 ^ (7 - x % 8) % 2)) matrix) m) x y =
        stdin.getD ((parseFileHeader stdin).image_data_address + (GRID_HEIGHT - 1 - y) * 4
          + x / 8) 0 / 2 ^ (7 - x % 8) % 2 := by
    intro x y hx hy
    rw [getPixel_gridLoop (fun x y =>
      stdin.getD ((parseFileHeader stdin).image_data_address + (GRID_HEIGHT - 1 - y) * 4
        + x / 8) 0 / 2 ^ (7 - x % 8) % 2), if_pos ⟨hx, hy⟩]
  refine ⟨_, readBMP_loaded host stdin m hbytes hbits hsig hstream hmalloc hdim hoff hraster,
    by rw [hdim.1, rowSize_grid], ?_, ?_⟩
  · intro x y hx hy
    rw [hdim.1, rowSize_grid]
    exact hpix x y hx hy
  · rw [hdim.1, rowSize_grid]
    exact hpix 0 0 (by decide) (by decide)

theorem C8_readBMP_decodes_witness :
    ((∀ b ∈ sampleBMP, b < 256) ∧ 32 ≤ sampleHost.sizeBits ∧
      ((parseFileHeader sampleBMP).signature0 = 'B'.toNat ∧
        (parseFileHeader sampleBMP).signature1 = 'M'.toNat) ∧
      (parseFileHeader sampleBMP).fileSize ≤ sampleBMP.length ∧
      sampleHost.mallocOk ((parseFileHeader sampleBMP).fileSize - sizeofBMPFileHeader) = true ∧
      ((parseInfoHeader (sampleBMP.drop sizeofBMPFileHeader)).width = GRID_WIDTH ∧
        (parseInfoHeader (sampleBMP.drop sizeofBMPFileHeader)).height = GRID_HEIGHT) ∧
      sizeofBMPFileHeader ≤ (parseFileHeader sampleBMP).image_data_address ∧
      (parseFileHeader sampleBMP).image_data_address + GRID_HEIGHT * rowSize GRID_WIDTH ≤
        (parseFileHeader sampleBMP).fileSize) ∧
    ∃ m', readBMP sampleHost sampleBMP zeroState = some (BMPExit.loaded, m') ∧
      rowSize (parseInfoHeader (sampleBMP.drop sizeofBMPFileHeader)).width = 4 ∧
      (∀ x y, x < GRID_WIDTH → y < GRID_HEIGHT →
        getPixel m' x y =
          sampleBMP.getD ((parseFileHeader sampleBMP).image_data_address
            + (GRID_HEIGHT - 1 - y)
              * rowSize (parseInfoHeader (sampleBMP.drop sizeofBMPFileHeader)).width
            + x / 8) 0 / 2 ^ (7 - x % 8) % 2) ∧
      getPixel m' 0 0 =
        sampleBMP.getD ((parseFileHeader sampleBMP).image_data_address
          + (GRID_HEIGHT - 1)
            * rowSize (parseInfoHeader (sampleBMP.drop sizeofBMPFileHeader)).width)
          0 / 2 ^ 7 % 2 :=
  ⟨⟨by decide, by decide, by decide, by decide, by decide, by decide, by decide, by decide⟩,
    C8_readBMP_decodes sampleHost sampleBMP zeroState (by decide) (by decide) (by decide)
      (by decide) (by decide) (by decide) (by decide) (by decide)⟩

/-- C9 as stated fails on an input shorter than a file header: the 5 bytes 'X','Y',0,0,0 do
not start with "BM", yet readBMP stops at the header read (TruncatedInput), before the
signature is looked at, and so does not fail with InvalidFormat. -/
theorem C9_short_input_counterexample :
    ((parseFileHeader [88, 89, 0, 0, 0]).signature0 ≠ 'B'.toNat ∨
      (parseFileHeader [88, 89, 0, 0, 0]).signature1 ≠ 'M'.toNat) ∧
    (readBMP sampleHost [88, 89, 0, 0, 0] zeroState).map (fun r => r.1) =
      some BMPExit.headerReadError ∧
    BMPExit.headerReadError.kind = some ErrorKind.TruncatedInput ∧
    (readBMP sampleHost [88, 89, 0, 0, 0] zeroState).map (fun r => r.1.kind) ≠
      some (some ErrorKind.InvalidFormat) := by
  rw [readBMP_short sampleHost _ zeroState (by decide)]
  decide

/-- C9 (amended): for every input holding at least the 14 bytes of a file header whose
first two bytes are not the ASCII characters 'B' and 'M', readBMP takes the
invalid-signature exit (InvalidFormat) and returns the grid unchanged: no pixel is written
and no dirty flag is set. -/
theorem C9_bad_signature (host : Host) (stdin : List Nat) (m : MatrixState)
    (hlen : sizeofBMPFileHeader ≤ stdin.length)
    (hsig : (parseFileHeader stdin).signature0 ≠ 'B'.toNat ∨
      (parseFileHeader stdin).signature1 ≠ 'M'.toNat) :
    readBMP host stdin m = some (BMPExit.badSignature, m) ∧
      BMPExit.badSignature.kind = some ErrorKind.InvalidFormat :=
  ⟨readBMP_badSignature host stdin m hlen hsig, rfl⟩

theorem C9_bad_signature_witness :
    (sizeofBMPFileHeader ≤ notBMP.length ∧
      ((parseFileHeader notBMP).signature0 ≠ 'B'.toNat ∨
        (parseFileHeader notBMP).signature1 ≠ 'M'.toNat)) ∧
    (readBMP sampleHost notBMP exampleState = some (BMPExit.badSignature, exampleState) ∧
      BMPExit.badSignature.kind = some ErrorKind.InvalidFormat) :=
  ⟨⟨by decide, by decide⟩, C9_bad_signature sampleHost notBMP exampleState (by decide) (by decide)⟩

/-- C10 as stated fails on a file cut off after its headers: `wideHeaders` has a valid
signature and an info header that declares width 33 = GRID_WIDTH + 1, but the file header
declares 126 bytes and only 38 are there, so readBMP stops at the read of the file data
(TruncatedInput) before it looks at the dimensions, and does not fail with
DimensionMismatch. -/
theorem C10_cut_off_file_counterexample :
    ((parseFileHeader wideHeaders).signature0 = 'B'.toNat ∧
      (parseFileHeader wideHeaders).signature1 = 'M'.toNat) ∧
    (parseInfoHeader (wideHeaders.drop sizeofBMPFileHeader)).width = 33 ∧
    (parseInfoHeader (wideHeaders.drop sizeofBMPFileHeader)).width ≠ GRID_WIDTH ∧
    (readBMP sampleHost wideHeaders zeroState).map (fun r => r.1) =
      some BMPExit.dataReadError ∧
    BMPExit.dataReadError.kind = some ErrorKind.TruncatedInput ∧
    (readBMP sampleHost wideHeaders zeroState).map (fun r => r.1.kind) ≠
      some (some ErrorKind.DimensionMismatch) := by
  decide

/-- C10 (amended): for every input byte stream with a valid signature whose declared file
size covers the file header and the info header (at least 14 + 24 bytes) and is held by the
stream, on a host with a `size_t` of at least 32 bits where the allocation succeeds: if the
info header declares width ≠ GRID_WIDTH or height ≠ GRID_HEIGHT, readBMP takes the
dimension exit (DimensionMismatch) and returns the grid unchanged: no pixel is written and
no dirty flag is set. -/
theorem C10_dimension_mismatch (host : Host) (stdin : List Nat) (m : MatrixState)
    (hbytes : ∀ b ∈ stdin, b < 256) (hbits : 32 ≤ host.sizeBits)
    (hsig : (parseFileHeader stdin).signature0 = 'B'.toNat ∧
      (parseFileHeader stdin).signature1 = 'M'.toNat)
    (hsize : sizeofBMPFileHeader + sizeofBMPInfoHeader ≤ (parseFileHeader stdin).fileSize)
    (hstream : (parseFileHeader stdin).fileSize ≤ stdin.length)
    (hmalloc : host.mallocOk ((parseFileHeader stdin).fileSize - sizeofBMPFileHeader) = true)
    (hdim : (parseInfoHeader (stdin.drop sizeofBMPFileHeader)).width ≠ GRID_WIDTH ∨
      (parseInfoHeader (stdin.drop sizeofBMPFileHeader)).height ≠ GRID_HEIGHT) :
    readBMP host stdin m = some (BMPExit.dimensionMismatch, m) ∧
      BMPExit.dimensionMismatch.kind = some ErrorKind.DimensionMismatch := by
  refine ⟨?_, rfl⟩
  rw [readBMP_after_reads host stdin m hbytes hbits hsig hsize hstream hmalloc]
  exact if_pos hdim

theorem C10_dimension_mismatch_witness :
    ((∀ b ∈ wideBMP, b < 256) ∧ 32 ≤ sampleHost.sizeBits ∧
      ((parseFileHeader wideBMP).signature0 = 'B'.toNat ∧
        (parseFileHeader wideBMP).signature1 = 'M'.toNat) ∧
      sizeofBMPFileHeader + sizeofBMPInfoHeader ≤ (parseFileHeader wideBMP).fileSize ∧
      (parseFileHeader wideBMP).fileSize ≤ wideBMP.length ∧
      sampleHost.mallocOk ((parseFileHeader wideBMP).fileSize - sizeofBMPFileHeader) = true ∧
      ((parseInfoHeader (wideBMP.drop sizeofBMPFileHeader)).width ≠ GRID_WIDTH ∨
        (parseInfoHeader (wideBMP.drop sizeofBMPFileHeader)).height ≠ GRID_HEIGHT)) ∧
    (readBMP sampleHost wideBMP exampleState = some (BMPExit.dimensionMismatch, exampleState) ∧
      BMPExit.dimensionMismatch.kind = some ErrorKind.DimensionMismatch) :=
  ⟨⟨by decide, by decide, by decide, by decide, by decide, by decide, by decide⟩,
    C10_dimension_mismatch sampleHost wideBMP exampleState (by decide) (by decide) (by decide)
      (by decide) (by decide) (by decide) (by decide)⟩

/-! ## Bitmap import: malformed sizes and offsets -/

theorem forLoopM_eq_none {σ : Type} (n : Nat) (body : Nat → σ → Option σ) (i : Nat)
    (hi : i < n) (h : ∀ s, body i s = none) (s : σ) : forLoopM n body s = none := by
  induction n with
  | zero => omega
  | succ k ih =>
    rw [forLoopM_succ]
    by_cases hik : i = k
    · subst hik
      cases forLoopM i body s with
      | none => rfl
      | some t => exact h t
    · rw [ih (by omega)]
      rfl

theorem readBMP_small_buffer (host : Host) (stdin : List Nat) (m : MatrixState)
    (hbytes : ∀ b ∈ stdin, b < 256) (hbits : 32 ≤ host.sizeBits)
    (hsig : (parseFileHeader stdin).signature0 = 'B'.toNat ∧
      (parseFileHeader stdin).signature1 = 'M'.toNat)
    (hlow : 14 < (parseFileHeader stdin).fileSize)
    (hsize : (parseFileHeader stdin).fileSize < 38)
    (hstream : (parseFileHeader stdin).fileSize ≤ stdin.length)
    (hmalloc : host.mallocOk ((parseFileHeader stdin).fileSize - 14) = true) :
    readBMP host stdin m = none := by
  have hlt : (parseFileHeader stdin).fileSize < 2 ^ host.sizeBits :=
    lt_of_lt_of_le (readU32_lt stdin hbytes 2) (two_pow_32_le host hbits)
  have hsub : host.sizeSub (parseFileHeader stdin).fileSize 14 =
      (parseFileHeader stdin).fileSize - 14 := sizeSub_eq host _ 14 hlt (by omega)
  unfold readBMP
  rw [if_neg (by simp only [sizeofBMPFileHeader]; omega)]
  simp only []
  rw [parseFileHeader_take, if_neg (by simp [hsig.1, hsig.2])]
  simp only [sizeofBMPFileHeader, sizeofBMPInfoHeader]
  rw [hsub, if_neg (by simp [hmalloc]), if_neg (by simp only [List.length_drop]; omega),
    if_pos (by omega)]

theorem readBMP_wrapped_size (host : Host) (stdin : List Nat) (m : MatrixState)
    (hbits : 32 ≤ host.sizeBits)
    (hsig : (parseFileHeader stdin).signature0 = 'B'.toNat ∧
      (parseFileHeader stdin).signature1 = 'M'.toNat)
    (hlen : 14 ≤ stdin.length) (hmax : stdin.length < 4294967296)
    (hsize : (parseFileHeader stdin).fileSize ≤ 14) :
    readBMP host stdin m = some (BMPExit.allocFailed, m) ∨
      readBMP host stdin m = some (BMPExit.dataReadError, m) := by
  have h32 := two_pow_32_le host hbits
  have hsub : host.sizeSub (parseFileHeader stdin).fileSize 14 = 0 ∨
      stdin.length - 14 < host.sizeSub (parseFileHeader stdin).fileSize 14 := by
    unfold Host.sizeSub
    rw [Nat.mod_eq_of_lt (by omega : 14 < 2 ^ host.sizeBits)]
    by_cases h14 : (parseFileHeader stdin).fileSize = 14
    · left
      rw [h14]
      have : 14 + 2 ^ host.sizeBits - 14 = 2 ^ host.sizeBits := by omega
      rw [this, Nat.mod_self]
    · right
      rw [Nat.mod_eq_of_lt (by omega)]
      omega
  unfold readBMP
  rw [if_neg (by simp only [sizeofBMPFileHeader]; omega)]
  simp only []
  rw [parseFileHeader_take, if_neg (by simp [hsig.1, hsig.2])]
  simp only [sizeofBMPFileHeader]
  by_cases hm : host.mallocOk (host.sizeSub (parseFileHeader stdin).fileSize 14) = false
  · left
    rw [if_pos hm]
  · right
    rw [if_neg hm, if_pos (by simpa only [List.length_drop] using hsub)]

theorem readBMP_out_of_bounds (host : Host) (stdin : List Nat) (m : MatrixState)
    (hbytes : ∀ b ∈ stdin, b < 256) (hbits : 32 ≤ host.sizeBits)
    (hsig : (parseFileHeader stdin).signature0 = 'B'.toNat ∧
      (parseFileHeader stdin).signature1 = 'M'.toNat)
    (hlow : 14 < (parseFileHeader stdin).fileSize)
    (hstream : (parseFileHeader stdin).fileSize ≤ stdin.length)
    (hmalloc : host.mallocOk ((parseFileHeader stdin).fileSize - 14) = true)
    (hdim : (parseInfoHeader (stdin.drop 14)).width = GRID_WIDTH ∧
      (parseInfoHeader (stdin.drop 14)).height = GRID_HEIGHT)
    (x y : Nat) (hx : x < GRID_WIDTH) (hy : y < GRID_HEIGHT)
    (hbad : (parseFileHeader stdin).image_data_address < 14 ∨
      (parseFileHeader stdin).fileSize - 14 ≤
        (parseFileHeader stdin).image_data_address - 14 + (GRID_HEIGHT - 1 - y) * 4 + x / 8) :
    readBMP host stdin m = none := by
  by_cases hsize : (parseFileHeader stdin).fileSize < 38
  · exact readBMP_small_buffer host stdin m hbytes hbits hsig hlow hsize hstream hmalloc
  have h32 := two_pow_32_le host hbits
  have hfs := readU32_lt stdin hbytes 2
  have haddr := readU32_lt stdin hbytes 10
  change (parseFileHeader stdin).fileSize < 4294967296 at hfs
  change (parseFileHeader stdin).image_data_address < 4294967296 at haddr
  rw [readBMP_after_reads host stdin m hbytes hbits hsig (by omega) hstream hmalloc,
    if_neg (by simp [hdim.1, hdim.2]), hdim.1, rowSize_grid]
  have hG8 : GRID_HEIGHT = 8 := rfl
  have hG32 : GRID_WIDTH = 32 := rfl
  rw [hG8] at hy hbad
  rw [hG32] at hx
  have hsmall : ((GRID_HEIGHT - 1 - y) * 4 + x / 8) % 4294967296 = (8 - 1 - y) * 4 + x / 8 :=
    Nat.mod_eq_of_lt (by rw [hG8]; omega)
  have hidx : (parseFileHeader stdin).fileSize - 14 ≤
      host.sizeSub (parseFileHeader stdin).image_data_address 14
        + ((8 - 1 - y) * 4 + x / 8) := by
    by_cases hoff : 14 ≤ (parseFileHeader stdin).image_data_address
    · rw [sizeSub_eq host _ 14 (by omega) hoff]
      omega
    · unfold Host.sizeSub
      rw [Nat.mod_eq_of_lt (by omega : 14 < 2 ^ host.sizeBits), Nat.mod_eq_of_lt (by omega)]
      omega
  rw [forLoopM_eq_none GRID_HEIGHT _ y (by rw [hG8]; exact hy)]
  · rfl
  · intro s
    apply forLoopM_eq_none GRID_WIDTH _ x (by rw [hG32]; exact hx)
    intro s'
    rw [hsmall, List.getElem?_eq_none (by rw [List.length_take]; omega)]

/-- C11 (defect of the code): the claim asks that an input with a valid signature and
matching dimensions whose declared data offset puts a needed raster byte outside the bytes
read, or lies below 14, fails with InvalidFormat instead of reading outside the buffer.
readBMP checks the signature, the dimensions and the results of `fread` and `malloc`, but
not the data offset. `badOffsetBMP` declares data offset 63 and file size 94: the raster
byte of pixel (31, 0) has index 63 - 14 + 7 × 4 + 3 = 80 in the 80 bytes read after the
file header, and line 232 reads it; with data offset 10 the pointer `pixelData` already
lies in front of the buffer. Both runs read outside `fileData` (no result in the model)
and neither takes the InvalidFormat exit. -/
theorem C11_bad_offset_reads_outside_buffer :
    ((parseFileHeader badOffsetBMP).signature0 = 'B'.toNat ∧
      (parseFileHeader badOffsetBMP).signature1 = 'M'.toNat) ∧
    ((parseInfoHeader (badOffsetBMP.drop sizeofBMPFileHeader)).width = GRID_WIDTH ∧
      (parseInfoHeader (badOffsetBMP.drop sizeofBMPFileHeader)).height = GRID_HEIGHT) ∧
    (parseFileHeader badOffsetBMP).fileSize = 94 ∧
    (parseFileHeader badOffsetBMP).image_data_address = 63 ∧
    (parseFileHeader badOffsetBMP).fileSize - sizeofBMPFileHeader ≤
      (parseFileHeader badOffsetBMP).image_data_address - sizeofBMPFileHeader
        + (GRID_HEIGHT - 1 - 0) * rowSize GRID_WIDTH + 31 / 8 ∧
    readBMP sampleHost badOffsetBMP zeroState = none ∧
    (readBMP sampleHost badOffsetBMP zeroState).map (fun r => r.1.kind) ≠
      some (some ErrorKind.InvalidFormat) ∧
    (parseFileHeader (sampleBMP.set 10 10)).image_data_address < sizeofBMPFileHeader ∧
    readBMP sampleHost (sampleBMP.set 10 10) zeroState = none := by
  have h : readBMP sampleHost badOffsetBMP zeroState = none :=
    readBMP_out_of_bounds sampleHost badOffsetBMP zeroState (by decide) (by decide) (by decide)
      (by decide) (by decide) (by decide) (by decide) 31 0 (by decide) (by decide) (by decide)
  have h' : readBMP sampleHost (sampleBMP.set 10 10) zeroState = none :=
    readBMP_out_of_bounds sampleHost (sampleBMP.set 10 10) zeroState (by decide) (by decide)
      (by decide) (by decide) (by decide) (by decide) (by decide) 0 0 (by decide) (by decide)
      (by decide)
  refine ⟨by decide, by decide, by decide, by decide, by decide, h, ?_, by decide, h'⟩
  rw [h]
  decide

/-! ## Transport status and the end-to-end scenario -/

theorem applyUpdates_status_irrelevant (rw rw' : Nat → List Nat → Int) (m : MatrixState) :
    applyUpdates rw m = applyUpdates rw' m := by
  rw [applyUpdates_eq, applyUpdates_eq]

/-- C12 as stated fails: row 7 of `exampleState` is dirty and the transport `failStatus`
reports -1 for its frame, yet applyUpdates sends the frame once and clears the flag of
row 7; the function returns nothing to its caller. -/
theorem C12_failed_write_counterexample :
    exampleState.changes 7 ≠ 0 ∧
    failStatus SPI_CHANNEL [8, 0, 8, 0, 8, 0, 8, 1] < 0 ∧
    (applyUpdates failStatus exampleState).1 = [[8, 0, 8, 0, 8, 0, 8, 1]] ∧
    (applyUpdates failStatus exampleState).2.changes 7 = 0 := by
  decide

/-- C12 (amended): applyUpdates ignores the status the transport reports (spiSendData
drops it and both functions return nothing): whatever the transport reports for the frame
of a dirty row, the frames sent and the state afterwards are those of a flush whose
transport reports no error, in particular the flag of every dirty row 0..7 is cleared
after its frame is sent, and the flags of all other rows are as after a failure-free
flush. -/
theorem C12_transport_status_ignored (rw : Nat → List Nat → Int) (m : MatrixState) :
    applyUpdates rw m = applyUpdates okStatus m ∧
      (∀ row, row < MATRIX_HEIGHT → m.changes row ≠ 0 →
        (applyUpdates rw m).2.changes row = 0) ∧
      (∀ row, (applyUpdates rw m).2.changes row = (applyUpdates okStatus m).2.changes row) := by
  refine ⟨applyUpdates_status_irrelevant rw okStatus m, ?_, ?_⟩
  · intro row hrow _
    rw [applyUpdates_eq]
    exact if_pos hrow
  · intro row
    rw [applyUpdates_status_irrelevant rw okStatus m]

theorem flush_single_pixel :
    ∀ x, x < 32 → ∀ y, y < 8 →
      (applyUpdates okStatus (setPixel zeroState x y 1)).1 =
        [[y % 8 + 1, if 0 = x / 8 then 1 <<< (7 - x % 8) else 0,
          y % 8 + 1, if 1 = x / 8 then 1 <<< (7 - x % 8) else 0,
          y % 8 + 1, if 2 = x / 8 then 1 <<< (7 - x % 8) else 0,
          y % 8 + 1, if 3 = x / 8 then 1 <<< (7 - x % 8) else 0]] := by
  decide

/-- C13: end to end on the 32×8 panel (DISPLAY_X = 4, DISPLAY_Y = 1), for every in-range
(x, y) and starting from the zero-initialised grid, setPixel(x, y, 1) followed by
applyUpdates sends exactly one frame of 8 bytes in which every module pair has register
address (y mod 8) + 1, the pair of module x/8 has value 1 << (7 - x mod 8) and every other
pair has value 0; for (x, y) = (31, 7) the frame is [8,0, 8,0, 8,0, 8,0x01], whose last
module pair is (8, 0x01). -/
theorem C13_single_pixel_frame (rw : Nat → List Nat → Int) (x y : Nat)
    (hx : x < GRID_WIDTH) (hy : y < GRID_HEIGHT) :
    DISPLAY_X = 4 ∧ DISPLAY_Y = 1 ∧
    (∃ frame, (applyUpdates rw (setPixel zeroState x y 1)).1 = [frame] ∧
      frame.length = 8 ∧
      ∀ dispY dispX, dispY < DISPLAY_Y → dispX < DISPLAY_X →
        frame.getD (2 * (dispY * DISPLAY_X + dispX)) 0 = y % MATRIX_HEIGHT + 1 ∧
        frame.getD (2 * (dispY * DISPLAY_X + dispX) + 1) 0 =
          if dispX = x / MATRIX_WIDTH then 1 <<< (7 - x % MATRIX_WIDTH) else 0) ∧
    (applyUpdates rw (setPixel zeroState 31 7 1)).1 = [[8, 0, 8, 0, 8, 0, 8, 0x01]] ∧
    ([8, 0, 8, 0, 8, 0, 8, 0x01] : List Nat).drop 6 = [8, 0x01] := by
  refine ⟨rfl, rfl, ?_, ?_, rfl⟩
  · refine ⟨[y % 8 + 1, if 0 = x / 8 then 1 <<< (7 - x % 8) else 0,
        y % 8 + 1, if 1 = x / 8 then 1 <<< (7 - x % 8) else 0,
        y % 8 + 1, if 2 = x / 8 then 1 <<< (7 - x % 8) else 0,
        y % 8 + 1, if 3 = x / 8 then 1 <<< (7 - x % 8) else 0], ?_, rfl, ?_⟩
    · rw [applyUpdates_status_irrelevant rw okStatus]
      exact flush_single_pixel x hx y hy
    · intro dispY dispX hY hX
      simp only [DISPLAY_X, DISPLAY_Y, MATRIX_HEIGHT, MATRIX_WIDTH] at hY hX ⊢
      interval_cases dispY
      interval_cases dispX <;> simp
  · rw [applyUpdates_status_irrelevant rw okStatus]
    exact flush_single_pixel 31 (by decide) 7 (by decide)

theorem C13_single_pixel_frame_witness :
    (31 < GRID_WIDTH ∧ 7 < GRID_HEIGHT) ∧
    (DISPLAY_X = 4 ∧ DISPLAY_Y = 1 ∧
    (∃ frame, (applyUpdates failStatus (setPixel zeroState 31 7 1)).1 = [frame] ∧
      frame.length = 8 ∧
      ∀ dispY dispX, dispY < DISPLAY_Y → dispX < DISPLAY_X →
        frame.getD (2 * (dispY * DISPLAY_X + dispX)) 0 = 7 % MATRIX_HEIGHT + 1 ∧
        frame.getD (2 * (dispY * DISPLAY_X + dispX) + 1) 0 =
          if dispX = 31 / MATRIX_WIDTH then 1 <<< (7 - 31 % MATRIX_WIDTH) else 0) ∧
    (applyUpdates failStatus (setPixel zeroState 31 7 1)).1 = [[8, 0, 8, 0, 8, 0, 8, 0x01]] ∧
    ([8, 0, 8, 0, 8, 0, 8, 0x01] : List Nat).drop 6 = [8, 0x01]) :=
  ⟨⟨by decide, by decide⟩, C13_single_pixel_frame failStatus 31 7 (by decide) (by decide)⟩

/-! ## Clearing the display -/

theorem rowLoop_changes (y0 n : Nat) (m : MatrixState) (r : Nat) :
    (forLoop n (fun x m => setPixel m x y0 0) m).changes r =
      if r = y0 % 8 ∧ ∃ x, x < n ∧ getPixel m x y0 ≠ 0 then 1 else m.changes r := by
  induction n with
  | zero => simp [forLoop]
  | succ k ih =>
    rw [forLoop_succ, setPixel_changes, ih, getPixel_rowLoop (fun _ => 0)]
    have hkk : ¬ (k < k ∧ y0 = y0) := fun h => Nat.lt_irrefl k h.1
    rw [if_neg hkk]
    by_cases hr : r = y0 % 8
    · by_cases hk : getPixel m k y0 = 0
      · have hiff : (∃ x, x < k + 1 ∧ getPixel m x y0 ≠ 0) ↔
            ∃ x, x < k ∧ getPixel m x y0 ≠ 0 := by
          constructor
          · rintro ⟨x, hx, hne⟩
            have hxk : x ≠ k := fun h => hne (h ▸ hk)
            exact ⟨x, by omega, hne⟩
          · rintro ⟨x, hx, hne⟩
            exact ⟨x, by omega, hne⟩
        simp only [hr, hk, ne_eq, not_true_eq_false, and_false, if_false, true_and, hiff]
      · have hex : ∃ x, x < k + 1 ∧ getPixel m x y0 ≠ 0 := ⟨k, Nat.lt_succ_self k, hk⟩
        rw [if_pos ⟨hr, hk⟩, if_pos ⟨hr, hex⟩]
    · rw [if_neg (fun h => hr h.1), if_neg (fun h => hr h.1), if_neg (fun h => hr h.1)]

theorem gridLoop_changes (w n : Nat) (m : MatrixState) (r : Nat) :
    (forLoop n (fun y m => forLoop w (fun x m => setPixel m x y 0) m) m).changes r =
      if ∃ y, y < n ∧ r = y % 8 ∧ ∃ x, x < w ∧ getPixel m x y ≠ 0 then 1
      else m.changes r := by
  induction n with
  | zero => simp [forLoop]
  | succ k ih =>
    rw [forLoop_succ, rowLoop_changes, ih]
    have hpix : ∀ x, getPixel
        (forLoop k (fun y m => forLoop w (fun x m => setPixel m x y 0) m) m) x k =
        getPixel m x k := by
      intro x
      rw [getPixel_gridLoop (fun _ _ => 0), if_neg (fun h => Nat.lt_irrefl k h.2)]
    simp only [hpix]
    by_cases hnew : r = k % 8 ∧ ∃ x, x < w ∧ getPixel m x k ≠ 0
    · rw [if_pos hnew, if_pos ⟨k, Nat.lt_succ_self k, hnew.1, hnew.2⟩]
    · rw [if_neg hnew]
      have hiff : (∃ y, y < k + 1 ∧ r = y % 8 ∧ ∃ x, x < w ∧ getPixel m x y ≠ 0) ↔
          ∃ y, y < k ∧ r = y % 8 ∧ ∃ x, x < w ∧ getPixel m x y ≠ 0 := by
        constructor
        · rintro ⟨y, hy, hry, hex⟩
          have hyk : y ≠ k := by
            intro h
            subst h
            exact hnew ⟨hry, hex⟩
          exact ⟨y, by omega, hry, hex⟩
        · rintro ⟨y, hy, hry, hex⟩
          exact ⟨y, by omega, hry, hex⟩
      simp only [hiff]

theorem rowLoop_id (y0 n : Nat) (m : MatrixState) (h : ∀ x, x < n → getPixel m x y0 = 0) :
    forLoop n (fun x m => setPixel m x y0 0) m = m := by
  induction n with
  | zero => rfl
  | succ k ih =>
    rw [forLoop_succ, ih (fun x hx => h x (Nat.lt_succ_of_lt hx))]
    exact setPixel_of_eq m k y0 0 (h k (Nat.lt_succ_self k))

theorem gridLoop_id (w n : Nat) (m : MatrixState)
    (h : ∀ x y, x < w → y < n → getPixel m x y = 0) :
    forLoop n (fun y m => forLoop w (fun x m => setPixel m x y 0) m) m = m := by
  induction n with
  | zero => rfl
  | succ k ih =>
    rw [forLoop_succ, ih (fun x y hx hy => h x y hx (Nat.lt_succ_of_lt hy))]
    exact rowLoop_id k w m (fun x hx => h x k hx (Nat.lt_succ_self k))

theorem getPixel_clearDisplay (m : MatrixState) (x y : Nat) (hx : x < GRID_WIDTH)
    (hy : y < GRID_HEIGHT) : getPixel (clearDisplay m) x y = 0 := by
  unfold clearDisplay
  rw [getPixel_gridLoop (fun _ _ => 0), if_pos ⟨hx, hy⟩]

theorem clearDisplay_changes (m : MatrixState) (r : Nat) :
    (clearDisplay m).changes r =
      if ∃ y, y < GRID_HEIGHT ∧ r = y % 8 ∧ ∃ x, x < GRID_WIDTH ∧ getPixel m x y ≠ 0 then 1
      else m.changes r := by
  unfold clearDisplay
  rw [gridLoop_changes]

theorem lit_row_iff (m : MatrixState) (row : Nat) (hrow : row < 8) :
    (∃ y, y < GRID_HEIGHT ∧ row = y % 8 ∧ ∃ x, x < GRID_WIDTH ∧ getPixel m x y ≠ 0) ↔
      ∃ dispY dispX lX, dispY < DISPLAY_Y ∧ dispX < DISPLAY_X ∧ lX < MATRIX_WIDTH ∧
        m.display dispY dispX row lX ≠ 0 := by
  simp only [GRID_HEIGHT, GRID_WIDTH, DISPLAY_X, DISPLAY_Y, MATRIX_WIDTH, MATRIX_HEIGHT,
    getPixel]
  constructor
  · rintro ⟨y, hy, hry, x, hx, hne⟩
    have hy0 : y / 8 = 0 := by omega
    have hyr : y % 8 = row := hry.symm
    rw [hy0, hyr] at hne
    exact ⟨0, x / 8, x % 8, by omega, by omega, by omega, hne⟩
  · rintro ⟨dY, dX, lX, hdY, hdX, hlX, hne⟩
    have hd0 : dY = 0 := by omega
    subst hd0
    refine ⟨row, by omega, by omega, 8 * dX + lX, by omega, ?_⟩
    have h1 : row / 8 = 0 := by omega
    have h2 : (8 * dX + lX) / 8 = dX := by omega
    have h3 : row % 8 = row := by omega
    have h4 : (8 * dX + lX) % 8 = lX := by omega
    rw [h1, h2, h3, h4]
    exact hne

theorem clearDisplay_of_zero (m : MatrixState)
    (hpix : ∀ dY dX lY lX, dY < DISPLAY_Y → dX < DISPLAY_X → lY < MATRIX_HEIGHT →
      lX < MATRIX_WIDTH → m.display dY dX lY lX = 0) : clearDisplay m = m := by
  unfold clearDisplay
  apply gridLoop_id
  intro x y hx hy
  simp only [GRID_WIDTH, GRID_HEIGHT, MATRIX_WIDTH, MATRIX_HEIGHT, DISPLAY_X, DISPLAY_Y] at hx hy
  exact hpix _ _ _ _ (by simp only [DISPLAY_Y, MATRIX_HEIGHT]; omega)
    (by simp only [DISPLAY_X, MATRIX_WIDTH]; omega) (Nat.mod_lt _ (by decide))
    (Nat.mod_lt _ (by decide))

theorem applyUpdates_of_clean (rw : Nat → List Nat → Int) (m : MatrixState)
    (hflags : ∀ row, row < MATRIX_HEIGHT → m.changes row = 0) : (applyUpdates rw m).1 = [] := by
  rw [applyUpdates_eq]
  simp only [List.map_eq_nil_iff, List.filter_eq_nil_iff, List.mem_range, decide_eq_true_eq]
  intro row hrow
  simp [hflags row hrow]

theorem applyUpdates_addresses (rw : Nat → List Nat → Int) (m : MatrixState) :
    (applyUpdates rw m).1.map (fun frame => frame.getD 0 0) =
      ((List.range MATRIX_HEIGHT).filter (fun row => decide (m.changes row ≠ 0))).map
        (fun row => row + 1) := by
  rw [applyUpdates_eq, List.map_map]
  apply List.map_congr_left
  intro row hmem
  have hrow : row < 8 := List.mem_range.1 (List.mem_filter.1 hmem).1
  have haddr := fillFrame_addr m row 0 0 hrow (by decide) (by decide)
  simp only [Nat.zero_mul, Nat.add_zero] at haddr
  simp only [Function.comp_apply]
  exact haddr

/-- C14: for a grid whose pixels are all 0 and whose dirty flags are all clear,
clearDisplay returns the state unchanged, so no row is dirty, and a following applyUpdates
hands no frame to the transport. -/
theorem C14_clear_of_zero_grid (rw : Nat → List Nat → Int) (m : MatrixState)
    (hpix : ∀ dY dX lY lX, dY < DISPLAY_Y → dX < DISPLAY_X → lY < MATRIX_HEIGHT →
      lX < MATRIX_WIDTH → m.display dY dX lY lX = 0)
    (hflags : ∀ row, row < MATRIX_HEIGHT → m.changes row = 0) :
    clearDisplay m = m ∧
      (∀ row, row < MATRIX_HEIGHT → (clearDisplay m).changes row = 0) ∧
      (applyUpdates rw (clearDisplay m)).1 = [] ∧
      (applyUpdates rw (clearDisplay m)).1.length = 0 := by
  have hid := clearDisplay_of_zero m hpix
  have hnone := applyUpdates_of_clean rw m hflags
  rw [hid]
  exact ⟨rfl, hflags, hnone, by rw [hnone]; rfl⟩

theorem C14_clear_of_zero_grid_witness :
    ((∀ dY dX lY lX, dY < DISPLAY_Y → dX < DISPLAY_X → lY < MATRIX_HEIGHT →
        lX < MATRIX_WIDTH → zeroState.display dY dX lY lX = 0) ∧
      (∀ row, row < MATRIX_HEIGHT → zeroState.changes row = 0)) ∧
    (clearDisplay zeroState = zeroState ∧
      (∀ row, row < MATRIX_HEIGHT → (clearDisplay zeroState).changes row = 0) ∧
      (applyUpdates okStatus (clearDisplay zeroState)).1 = [] ∧
      (applyUpdates okStatus (clearDisplay zeroState)).1.length = 0) :=
  ⟨⟨fun _ _ _ _ _ _ _ _ => rfl, fun _ _ => rfl⟩,
    C14_clear_of_zero_grid okStatus zeroState (fun _ _ _ _ _ _ _ _ => rfl) (fun _ _ => rfl)⟩

/-- C15: for every grid state, after clearDisplay every pixel at every logical coordinate
in [0, GRID_WIDTH) × [0, GRID_HEIGHT), that is every cell of every module, is 0, and the
dirty flag of a local row 0..7 is set afterwards exactly when it was set before or some
module held a non-zero pixel in that local row before the call. -/
theorem C15_clear_effect (m : MatrixState) :
    (∀ x y, x < GRID_WIDTH → y < GRID_HEIGHT → getPixel (clearDisplay m) x y = 0) ∧
      (∀ dispY dispX lY lX, dispY < DISPLAY_Y → dispX < DISPLAY_X → lY < MATRIX_HEIGHT →
        lX < MATRIX_WIDTH → (clearDisplay m).display dispY dispX lY lX = 0) ∧
      (∀ row, row < MATRIX_HEIGHT →
        ((clearDisplay m).changes row ≠ 0 ↔
          (m.changes row ≠ 0 ∨
            ∃ dispY dispX lX, dispY < DISPLAY_Y ∧ dispX < DISPLAY_X ∧ lX < MATRIX_WIDTH ∧
              m.display dispY dispX row lX ≠ 0))) := by
  refine ⟨fun x y hx hy => getPixel_clearDisplay m x y hx hy, ?_, ?_⟩
  · intro dY dX lY lX hdY hdX hlY hlX
    simp only [DISPLAY_X, DISPLAY_Y, MATRIX_WIDTH, MATRIX_HEIGHT] at hdY hdX hlY hlX
    have h := getPixel_clearDisplay m (8 * dX + lX) (8 * dY + lY)
      (by simp only [GRID_WIDTH, MATRIX_WIDTH, DISPLAY_X]; omega)
      (by simp only [GRID_HEIGHT, MATRIX_HEIGHT, DISPLAY_Y]; omega)
    simp only [getPixel, MATRIX_WIDTH, MATRIX_HEIGHT] at h
    have h1 : (8 * dY + lY) / 8 = dY := by omega
    have h2 : (8 * dX + lX) / 8 = dX := by omega
    have h3 : (8 * dY + lY) % 8 = lY := by omega
    have h4 : (8 * dX + lX) % 8 = lX := by omega
    rw [h1, h2, h3, h4] at h
    exact h
  · intro row hrow
    rw [clearDisplay_changes, ← lit_row_iff m row hrow]
    by_cases hlit : ∃ y, y < GRID_HEIGHT ∧ row = y % 8 ∧
        ∃ x, x < GRID_WIDTH ∧ getPixel m x y ≠ 0
    · rw [if_pos hlit]
      exact ⟨fun _ => Or.inr hlit, fun _ => by decide⟩
    · rw [if_neg hlit]
      exact ⟨fun h => Or.inl h, fun h => h.resolve_right hlit⟩

/-- C16 as stated fails: on the newly created grid (all pixels 0, no dirty row) the first
clearDisplay marks no row dirty, and the flush that follows transmits no frame. -/
theorem C16_first_clear_counterexample :
    (∀ row, row < MATRIX_HEIGHT → (clearDisplay zeroState).changes row = 0) ∧
    (applyUpdates okStatus (clearDisplay zeroState)).1 = [] := by
  have hid : clearDisplay zeroState = zeroState :=
    clearDisplay_of_zero zeroState (fun _ _ _ _ _ _ _ _ => rfl)
  rw [hid]
  exact ⟨fun _ _ => rfl, applyUpdates_of_clean okStatus zeroState (fun _ _ => rfl)⟩

/-- C16 (amended): clearDisplay marks a local row dirty only where it changes a pixel.
On a grid in which every local row 0..7 is already dirty or holds a non-zero pixel in some
module, clearDisplay leaves all local rows 0..7 dirty, and the flush that follows
transmits all eight rows, with register addresses 1..8 in this order. -/
theorem C16_clear_marks_lit_rows (rw : Nat → List Nat → Int) (m : MatrixState)
    (hlit : ∀ row, row < MATRIX_HEIGHT →
      (m.changes row ≠ 0 ∨
        ∃ dispY dispX lX, dispY < DISPLAY_Y ∧ dispX < DISPLAY_X ∧ lX < MATRIX_WIDTH ∧
          m.display dispY dispX row lX ≠ 0)) :
    (∀ row, row < MATRIX_HEIGHT → (clearDisplay m).changes row ≠ 0) ∧
      (applyUpdates rw (clearDisplay m)).1.map (fun frame => frame.getD 0 0) =
        [1, 2, 3, 4, 5, 6, 7, 8] ∧
      (applyUpdates rw (clearDisplay m)).1.length = 8 := by
  have hdirty : ∀ row, row < MATRIX_HEIGHT → (clearDisplay m).changes row ≠ 0 := by
    intro row hrow
    rw [clearDisplay_changes]
    have h := hlit row hrow
    rw [← lit_row_iff m row hrow] at h
    by_cases hex : ∃ y, y < GRID_HEIGHT ∧ row = y % 8 ∧
        ∃ x, x < GRID_WIDTH ∧ getPixel m x y ≠ 0
    · rw [if_pos hex]
      decide
    · rw [if_neg hex]
      exact h.resolve_right hex
  have haddr : (applyUpdates rw (clearDisplay m)).1.map (fun frame => frame.getD 0 0) =
      [1, 2, 3, 4, 5, 6, 7, 8] := by
    rw [applyUpdates_addresses, List.filter_eq_self.2]
    · rfl
    · intro row hmem
      exact decide_eq_true (hdirty row (List.mem_range.1 hmem))
  refine ⟨hdirty, haddr, ?_⟩
  have hlen := congrArg List.length haddr
  rw [List.length_map] at hlen
  exact hlen

theorem C16_clear_marks_lit_rows_witness :
    (∀ row, row < MATRIX_HEIGHT →
      (fullState.changes row ≠ 0 ∨
        ∃ dispY dispX lX, dispY < DISPLAY_Y ∧ dispX < DISPLAY_X ∧ lX < MATRIX_WIDTH ∧
          fullState.display dispY dispX row lX ≠ 0)) ∧
    ((∀ row, row < MATRIX_HEIGHT → (clearDisplay fullState).changes row ≠ 0) ∧
      (applyUpdates okStatus (clearDisplay fullState)).1.map (fun frame => frame.getD 0 0) =
        [1, 2, 3, 4, 5, 6, 7, 8] ∧
      (applyUpdates okStatus (clearDisplay fullState)).1.length = 8) :=
  ⟨fun _ _ => Or.inr ⟨0, 0, 0, by decide, by decide, by decide, Nat.one_ne_zero⟩,
    C16_clear_marks_lit_rows okStatus fullState
      (fun _ _ => Or.inr ⟨0, 0, 0, by decide, by decide, by decide, Nat.one_ne_zero⟩)⟩

/-! ## Short input and the row stride -/

/-- C17: for every input stream holding fewer than 14 bytes, the size of the packed file
header, readBMP stops at the header read (TruncatedInput) and returns the grid unchanged:
no pixel is written and no dirty flag is set. -/
theorem C17_short_header (host : Host) (stdin : List Nat) (m : MatrixState)
    (hshort : stdin.length < sizeofBMPFileHeader) :
    sizeofBMPFileHeader = 14 ∧
      readBMP host stdin m = some (BMPExit.headerReadError, m) ∧
      BMPExit.headerReadError.kind = some ErrorKind.TruncatedInput :=
  ⟨rfl, readBMP_short host stdin m hshort, rfl⟩

theorem C17_short_header_witness :
    ([66, 77, 94, 0, 0, 0, 0, 0, 0, 0, 62, 0, 0] : List Nat).length < sizeofBMPFileHeader ∧
    (sizeofBMPFileHeader = 14 ∧
      readBMP sampleHost [66, 77, 94, 0, 0, 0, 0, 0, 0, 0, 62, 0, 0] exampleState =
        some (BMPExit.headerReadError, exampleState) ∧
      BMPExit.headerReadError.kind = some ErrorKind.TruncatedInput) :=
  ⟨by decide, C17_short_header sampleHost [66, 77, 94, 0, 0, 0, 0, 0, 0, 0, 62, 0, 0]
    exampleState (by decide)⟩

theorem rowSize_natCast (n : Nat) (hmax : n ≤ 2147483616) :
    rowSize (n : Int) = (n + 31) / 32 * 4 := by
  unfold rowSize
  have h1 : ((n : Int) + 31).tdiv 32 = (((n + 31) / 32 : Nat) : Int) := by
    rw [Int.ofNat_tdiv]
    rfl
  rw [h1]
  have h2 : ((((n + 31) / 32 : Nat) : Int) * 4) % 4294967296 = (((n + 31) / 32 * 4 : Nat) : Int) := by
    omega
  rw [h2, Int.toNat_ofNat]

/-- C18: the row stride computed by readBMP, ((width + 31) / 32) × 4 with truncating
integer division, equals ceil(width / 32) × 4 for every width with
0 ≤ width ≤ 2^31 - 32: it is a multiple of 4, it holds at least ceil(width / 8) bytes, and
it is the smallest such multiple (stride × 8 < width + 32); for width = GRID_WIDTH = 32 it
is 4. -/
theorem C18_row_stride (width : Int) (h0 : 0 ≤ width) (hmax : width ≤ 2 ^ 31 - 32) :
    (rowSize width : Int) = Int.ceil ((width : ℚ) / 32) * 4 ∧
      4 ∣ rowSize width ∧
      Int.ceil ((width : ℚ) / 8) ≤ (rowSize width : Int) ∧
      width ≤ (rowSize width : Int) * 8 ∧
      (rowSize width : Int) * 8 < width + 32 ∧
      (∀ k : Nat, width ≤ ((4 * k : Nat) : Int) * 8 → rowSize width ≤ 4 * k) ∧
      rowSize GRID_WIDTH = 4 := by
  obtain ⟨n, rfl⟩ := Int.eq_ofNat_of_zero_le h0
  have hn : n ≤ 2147483616 := by omega
  rw [rowSize_natCast n hn]
  have hceil32 : Int.ceil (((n : Int) : ℚ) / 32) = (((n + 31) / 32 : Nat) : Int) := by
    rw [Int.ceil_eq_iff]
    constructor
    · rw [lt_div_iff₀ (by norm_num)]
      have : (((n + 31) / 32 : Nat) : Int) * 32 - 32 < (n : Int) := by omega
      have h := (Int.cast_lt (R := ℚ)).2 this
      push_cast at h ⊢
      linarith
    · rw [div_le_iff₀ (by norm_num)]
      have : (n : Int) ≤ (((n + 31) / 32 : Nat) : Int) * 32 := by omega
      have h := (Int.cast_le (R := ℚ)).2 this
      push_cast at h ⊢
      linarith
  refine ⟨?_, ?_, ?_, ?_, ?_, ?_, rowSize_grid⟩
  · rw [hceil32]
    push_cast
    rfl
  · exact Dvd.intro_left _ rfl
  · rw [Int.ceil_le, div_le_iff₀ (by norm_num)]
    have : (n : Int) ≤ (((n + 31) / 32 * 4 : Nat) : Int) * 8 := by omega
    have h := (Int.cast_le (R := ℚ)).2 this
    push_cast at h ⊢
    linarith
  · omega
  · omega
  · intro k hk
    omega

theorem C18_row_stride_witness :
    ((0 : Int) ≤ 33 ∧ (33 : Int) ≤ 2 ^ 31 - 32) ∧
    ((rowSize 33 : Int) = Int.ceil (((33 : Int) : ℚ) / 32) * 4 ∧
      4 ∣ rowSize 33 ∧
      Int.ceil (((33 : Int) : ℚ) / 8) ≤ (rowSize 33 : Int) ∧
      (33 : Int) ≤ (rowSize 33 : Int) * 8 ∧
      (rowSize 33 : Int) * 8 < 33 + 32 ∧
      (∀ k : Nat, (33 : Int) ≤ ((4 * k : Nat) : Int) * 8 → rowSize 33 ≤ 4 * k) ∧
      rowSize GRID_WIDTH = 4) :=
  ⟨⟨by decide, by decide⟩, C18_row_stride 33 (by decide) (by decide)⟩

/-! ## Bitmap import: the bits-per-pixel field -/

theorem readBMP_unfold (host : Host) (stdin : List Nat) (m : MatrixState)
    (hlen : 14 ≤ stdin.length) :
    readBMP host stdin m =
      if (parseFileHeader stdin).signature0 ≠ 'B'.toNat ∨
          (parseFileHeader stdin).signature1 ≠ 'M'.toNat then
        some (BMPExit.badSignature, m)
      else if host.mallocOk (host.sizeSub (parseFileHeader stdin).fileSize 14) = false then
        some (BMPExit.allocFailed, m)
      else if host.sizeSub (parseFileHeader stdin).fileSize 14 = 0 ∨
          (stdin.drop 14).length < host.sizeSub (parseFileHeader stdin).fileSize 14 then
        some (BMPExit.dataReadError, m)
      else if host.sizeSub (parseFileHeader stdin).fileSize 14 < 24 then none
      else if (parseInfoHeader ((stdin.drop 14).take
            (host.sizeSub (parseFileHeader stdin).fileSize 14))).width ≠ GRID_WIDTH ∨
          (parseInfoHeader ((stdin.drop 14).take
            (host.sizeSub (parseFileHeader stdin).fileSize 14))).height ≠ GRID_HEIGHT then
        some (BMPExit.dimensionMismatch, m)
      else
        (decodeRows ((stdin.drop 14).take (host.sizeSub (parseFileHeader stdin).fileSize 14))
          (host.sizeSub (parseFileHeader stdin).image_data_address 14)
          (rowSize (parseInfoHeader ((stdin.drop 14).take
            (host.sizeSub (parseFileHeader stdin).fileSize 14))).width) m).map
          (fun matrix => (BMPExit.loaded, matrix)) := by
  unfold readBMP decodeRows
  rw [if_neg (by simp only [sizeofBMPFileHeader]; omega)]
  simp only []
  rw [parseFileHeader_take]

theorem forLoopM_isSome_congr {σ : Type} (n : Nat) (b1 b2 : Nat → σ → Option σ)
    (h : ∀ i, i < n → ∀ s s', (b1 i s).isSome = (b2 i s').isSome) (s s' : σ) :
    (forLoopM n b1 s).isSome = (forLoopM n b2 s').isSome := by
  induction n with
  | zero => rfl
  | succ k ih =>
    rw [forLoopM_succ, forLoopM_succ]
    have hk := ih (fun i hi => h i (Nat.lt_succ_of_lt hi))
    cases h1 : forLoopM k b1 s with
    | none =>
      cases h2 : forLoopM k b2 s' with
      | none => rfl
      | some t' => rw [h1, h2] at hk; exact Bool.noConfusion hk
    | some t =>
      cases h2 : forLoopM k b2 s' with
      | none => rw [h1, h2] at hk; exact Bool.noConfusion hk
      | some t' => exact h k (Nat.lt_succ_self k) t t'

theorem forLoopM_congr {σ : Type} (n : Nat) (b1 b2 : Nat → σ → Option σ)
    (h : ∀ i, i < n → ∀ s, b1 i s = b2 i s) (s : σ) :
    forLoopM n b1 s = forLoopM n b2 s := by
  induction n with
  | zero => rfl
  | succ k ih =>
    rw [forLoopM_succ, forLoopM_succ, ih (fun i hi => h i (Nat.lt_succ_of_lt hi))]
    cases forLoopM k b2 s with
    | none => rfl
    | some t => exact h k (Nat.lt_succ_self k) t

theorem decodeRows_isSome_congr (fd1 fd2 : List Nat) (hlen : fd1.length = fd2.length)
    (P rs : Nat) (m1 m2 : MatrixState) :
    (decodeRows fd1 P rs m1).isSome = (decodeRows fd2 P rs m2).isSome := by
  unfold decodeRows
  apply forLoopM_isSome_congr
  intro y _ s s'
  apply forLoopM_isSome_congr
  intro x _ t t'
  simp only []
  by_cases hi : P + ((GRID_HEIGHT - 1 - y) * rs + x / 8) % 4294967296 < fd1.length
  · rw [List.getElem?_eq_getElem hi, List.getElem?_eq_getElem (hlen ▸ hi)]
    rfl
  · rw [List.getElem?_eq_none (by omega), List.getElem?_eq_none (by omega)]

theorem decodeRows_congr (fd1 fd2 : List Nat) (P rs : Nat) (m : MatrixState)
    (h : ∀ i, P ≤ i → fd1[i]? = fd2[i]?) :
    decodeRows fd1 P rs m = decodeRows fd2 P rs m := by
  unfold decodeRows
  apply forLoopM_congr
  intro y _ s
  apply forLoopM_congr
  intro x _ t
  simp only []
  rw [h _ (Nat.le_add_right _ _)]

theorem getElem?_eq_getD (s : List Nat) (j : Nat) :
    s[j]? = if j < s.length then some (s.getD j 0) else none := by
  by_cases h : j < s.length
  · rw [if_pos h, List.getD_eq_getElem _ _ h, List.getElem?_eq_getElem h]
  · rw [if_neg h, List.getElem?_eq_none (by omega)]

theorem fileData_getElem?_eq (s : List Nat) (size i : Nat) :
    ((s.drop 14).take size)[i]? =
      if i < size ∧ 14 + i < s.length then some (s.getD (14 + i) 0) else none := by
  rw [List.getElem?_take, List.getElem?_drop, getElem?_eq_getD]
  by_cases h1 : i < size
  · by_cases h2 : 14 + i < s.length
    · rw [if_pos h1, if_pos h2, if_pos ⟨h1, h2⟩]
    · rw [if_pos h1, if_neg h2, if_neg (fun h => h2 h.2)]
  · rw [if_neg h1, if_neg (fun h => h1 h.1)]

theorem fileData_getD_eq (s : List Nat) (size i : Nat) :
    ((s.drop 14).take size).getD i 0 =
      if i < size ∧ 14 + i < s.length then s.getD (14 + i) 0 else 0 := by
  rw [List.getD_eq_getElem?_getD, fileData_getElem?_eq]
  split_ifs <;> rfl

theorem readU32_congr (l1 l2 : List Nat) (off : Nat)
    (h : ∀ i, off ≤ i → i ≤ off + 3 → l1.getD i 0 = l2.getD i 0) :
    readU32 l1 off = readU32 l2 off := by
  unfold readU32
  rw [h off (by omega) (by omega), h (off + 1) (by omega) (by omega),
    h (off + 2) (by omega) (by omega), h (off + 3) (by omega) (by omega)]

theorem readU16_congr (l1 l2 : List Nat) (off : Nat)
    (h : ∀ i, off ≤ i → i ≤ off + 1 → l1.getD i 0 = l2.getD i 0) :
    readU16 l1 off = readU16 l2 off := by
  unfold readU16
  rw [h off (by omega) (by omega), h (off + 1) (by omega) (by omega)]

theorem parseFileHeader_congr (s1 s2 : List Nat)
    (hsame : ∀ i, i ≠ 28 → i ≠ 29 → s1.getD i 0 = s2.getD i 0) :
    parseFileHeader s1 = parseFileHeader s2 := by
  unfold parseFileHeader
  rw [hsame 0 (by decide) (by decide), hsame 1 (by decide) (by decide),
    readU32_congr s1 s2 2 (fun i _ _ => hsame i (by omega) (by omega)),
    readU16_congr s1 s2 6 (fun i _ _ => hsame i (by omega) (by omega)),
    readU16_congr s1 s2 8 (fun i _ _ => hsame i (by omega) (by omega)),
    readU32_congr s1 s2 10 (fun i _ _ => hsame i (by omega) (by omega))]

theorem fileData_getD_congr (s1 s2 : List Nat) (hlen : s1.length = s2.length)
    (hsame : ∀ i, i ≠ 28 → i ≠ 29 → s1.getD i 0 = s2.getD i 0) (size i : Nat)
    (h14 : i ≠ 14) (h15 : i ≠ 15) :
    ((s1.drop 14).take size).getD i 0 = ((s2.drop 14).take size).getD i 0 := by
  rw [fileData_getD_eq, fileData_getD_eq, hlen, hsame (14 + i) (by omega) (by omega)]

theorem fileData_getElem?_congr (s1 s2 : List Nat) (hlen : s1.length = s2.length)
    (hsame : ∀ i, i ≠ 28 → i ≠ 29 → s1.getD i 0 = s2.getD i 0) (size i : Nat)
    (h14 : i ≠ 14) (h15 : i ≠ 15) :
    ((s1.drop 14).take size)[i]? = ((s2.drop 14).take size)[i]? := by
  rw [fileData_getElem?_eq, fileData_getElem?_eq, hlen, hsame (14 + i) (by omega) (by omega)]

theorem infoHeader_dims_congr (s1 s2 : List Nat) (hlen : s1.length = s2.length)
    (hsame : ∀ i, i ≠ 28 → i ≠ 29 → s1.getD i 0 = s2.getD i 0) (size : Nat) :
    (parseInfoHeader ((s2.drop 14).take size)).width =
        (parseInfoHeader ((s1.drop 14).take size)).width ∧
      (parseInfoHeader ((s2.drop 14).take size)).height =
        (parseInfoHeader ((s1.drop 14).take size)).height := by
  unfold parseInfoHeader
  simp only []
  rw [readU32_congr _ _ 4 (fun i _ _ =>
      fileData_getD_congr s1 s2 hlen hsame size i (by omega) (by omega)),
    readU32_congr _ _ 8 (fun i _ _ =>
      fileData_getD_congr s1 s2 hlen hsame size i (by omega) (by omega))]
  exact ⟨rfl, rfl⟩

/-- The run of `readBMP` on a stream `s2` that differs from `s1` at most in bytes 28 and
29: every decision is the one taken on `s1`, and only the buffer of the row loops is
that of `s2`. -/
theorem readBMP_unfold_other (host : Host) (s1 s2 : List Nat) (m : MatrixState)
    (hlen : s1.length = s2.length)
    (hsame : ∀ i, i ≠ 28 → i ≠ 29 → s1.getD i 0 = s2.getD i 0)
    (h14 : 14 ≤ s1.length) :
    readBMP host s2 m =
      if (parseFileHeader s1).signature0 ≠ 'B'.toNat ∨
          (parseFileHeader s1).signature1 ≠ 'M'.toNat then
        some (BMPExit.badSignature, m)
      else if host.mallocOk (host.sizeSub (parseFileHeader s1).fileSize 14) = false then
        some (BMPExit.allocFailed, m)
      else if host.sizeSub (parseFileHeader s1).fileSize 14 = 0 ∨
          (s1.drop 14).length < host.sizeSub (parseFileHeader s1).fileSize 14 then
        some (BMPExit.dataReadError, m)
      else if host.sizeSub (parseFileHeader s1).fileSize 14 < 24 then none
      else if (parseInfoHeader ((s1.drop 14).take
            (host.sizeSub (parseFileHeader s1).fileSize 14))).width ≠ GRID_WIDTH ∨
          (parseInfoHeader ((s1.drop 14).take
            (host.sizeSub (parseFileHeader s1).fileSize 14))).height ≠ GRID_HEIGHT then
        some (BMPExit.dimensionMismatch, m)
      else
        (decodeRows ((s2.drop 14).take (host.sizeSub (parseFileHeader s1).fileSize 14))
          (host.sizeSub (parseFileHeader s1).image_data_address 14)
          (rowSize (parseInfoHeader ((s1.drop 14).take
            (host.sizeSub (parseFileHeader s1).fileSize 14))).width) m).map
          (fun matrix => (BMPExit.loaded, matrix)) := by
  rw [readBMP_unfold host s2 m (hlen ▸ h14), ← parseFileHeader_congr s1 s2 hsame,
    (infoHeader_dims_congr s1 s2 hlen hsame _).1, (infoHeader_dims_congr s1 s2 hlen hsame _).2,
    List.length_drop, List.length_drop, hlen]

theorem map_const_of_isSome {α β : Type} (x y : Option α) (c : α → β) (d : β)
    (hc : ∀ a, c a = d) (h : x.isSome = y.isSome) : x.map c = y.map c := by
  cases x with
  | none =>
    cases y with
    | none => rfl
    | some b => exact Bool.noConfusion h
  | some a =>
    cases y with
    | none => exact Bool.noConfusion h
    | some b => simp only [Option.map_some', hc]

theorem readBMP_same_exit (host : Host) (s1 s2 : List Nat) (m : MatrixState)
    (hlen : s1.length = s2.length)
    (hsame : ∀ i, i ≠ 28 → i ≠ 29 → s1.getD i 0 = s2.getD i 0) :
    (readBMP host s1 m).map (fun r => r.1) = (readBMP host s2 m).map (fun r => r.1) := by
  by_cases hshort : s1.length < 14
  · rw [readBMP_short host s1 m hshort, readBMP_short host s2 m (hlen ▸ hshort)]
  · rw [readBMP_unfold host s1 m (by omega),
      readBMP_unfold_other host s1 s2 m hlen hsame (by omega)]
    split_ifs
    · rfl
    · rfl
    · rfl
    · rfl
    · rfl
    · rw [Option.map_map, Option.map_map]
      apply map_const_of_isSome _ _ _ BMPExit.loaded (fun _ => rfl)
      apply decodeRows_isSome_congr
      rw [List.length_take, List.length_take, List.length_drop, List.length_drop, hlen]

theorem readBMP_same_result (host : Host) (s1 s2 : List Nat) (m : MatrixState)
    (hlen : s1.length = s2.length)
    (hsame : ∀ i, i ≠ 28 → i ≠ 29 → s1.getD i 0 = s2.getD i 0)
    (hoff : 16 ≤ host.sizeSub (parseFileHeader s1).image_data_address 14) :
    readBMP host s1 m = readBMP host s2 m := by
  by_cases hshort : s1.length < 14
  · rw [readBMP_short host s1 m hshort, readBMP_short host s2 m (hlen ▸ hshort)]
  · rw [readBMP_unfold host s1 m (by omega),
      readBMP_unfold_other host s1 s2 m hlen hsame (by omega)]
    split_ifs
    · rfl
    · rfl
    · rfl
    · rfl
    · rfl
    · rw [decodeRows_congr _ _ _ _ m (fun i hi =>
        fileData_getElem?_congr s1 s2 hlen hsame _ i (by omega) (by omega))]

theorem readBMP_pixels (host : Host) (stdin : List Nat) (m : MatrixState)
    (hbytes : ∀ b ∈ stdin, b < 256) (hbits : 32 ≤ host.sizeBits)
    (hsig : (parseFileHeader stdin).signature0 = 'B'.toNat ∧
      (parseFileHeader stdin).signature1 = 'M'.toNat)
    (hstream : (parseFileHeader stdin).fileSize ≤ stdin.length)
    (hmalloc : host.mallocOk ((parseFileHeader stdin).fileSize - 14) = true)
    (hdim : (parseInfoHeader (stdin.drop 14)).width = GRID_WIDTH ∧
      (parseInfoHeader (stdin.drop 14)).height = GRID_HEIGHT)
    (hoff : 14 ≤ (parseFileHeader stdin).image_data_address)
    (hraster : (parseFileHeader stdin).image_data_address + GRID_HEIGHT * 4 ≤
      (parseFileHeader stdin).fileSize) :
    ∃ m', readBMP host stdin m = some (BMPExit.loaded, m') ∧
      ∀ x y, x < GRID_WIDTH → y < GRID_HEIGHT →
        getPixel m' x y =
          stdin.getD ((parseFileHeader stdin).image_data_address + (GRID_HEIGHT - 1 - y) * 4
            + x / 8) 0 / 2 ^ (7 - x % 8) % 2 := by
  refine ⟨_, readBMP_loaded host stdin m hbytes hbits hsig hstream hmalloc hdim hoff hraster, ?_⟩
  intro x y hx hy
  rw [getPixel_gridLoop (fun x y =>
    stdin.getD ((parseFileHeader stdin).image_data_address + (GRID_HEIGHT - 1 - y) * 4
      + x / 8) 0 / 2 ^ (7 - x % 8) % 2), if_pos ⟨hx, hy⟩]

/-- C19 as stated fails when the raster lies on top of the info header: `overlapBMP` and
`overlapBMP.set 28 255` are equal byte for byte except for the low byte of bitsPerPixel
(1 and 255), both are decoded to the end, and pixel (16, 4), which is bit 7 of stream byte
14 + 3 × 4 + 2 = 28, is 0 for the first and 1 for the second. -/
theorem C19_overlap_counterexample :
    overlapBMP.length = (overlapBMP.set 28 255).length ∧
    (∀ i, i < 50 → i ≠ 28 → overlapBMP.getD i 0 = (overlapBMP.set 28 255).getD i 0) ∧
    ∃ m1 m2, readBMP sampleHost overlapBMP zeroState = some (BMPExit.loaded, m1) ∧
      readBMP sampleHost (overlapBMP.set 28 255) zeroState = some (BMPExit.loaded, m2) ∧
      getPixel m1 16 4 = 0 ∧ getPixel m2 16 4 = 1 := by
  obtain ⟨m1, h1, p1⟩ := readBMP_pixels sampleHost overlapBMP zeroState (by decide)
    (by decide) (by decide) (by decide) (by decide) (by decide) (by decide) (by decide)
  obtain ⟨m2, h2, p2⟩ := readBMP_pixels sampleHost (overlapBMP.set 28 255) zeroState
    (by decide) (by decide) (by decide) (by decide) (by decide) (by decide) (by decide)
    (by decide)
  refine ⟨by decide, by decide, m1, m2, h1, h2, ?_, ?_⟩
  · rw [p1 16 4 (by decide) (by decide)]
    decide
  · rw [p2 16 4 (by decide) (by decide)]
    decide

/-- C19 (amended): readBMP does not validate the bits-per-pixel field. For any two input
streams of equal length that are equal byte for byte except for the two bytes of the info
header's bitsPerPixel field (stream bytes 28 and 29), readBMP takes the same
success/failure path (the same exit, or an undefined run for both), and no exit is
UnsupportedFormat; and when the declared data offset is at least 30, so that the raster
lies behind the field, on a host with a `size_t` of at least 32 bits, both runs end with
the same grid pixels and dirty flags. -/
theorem C19_bits_per_pixel_not_validated (host : Host) (s1 s2 : List Nat) (m : MatrixState)
    (hlen : s1.length = s2.length)
    (hsame : ∀ i, i ≠ sizeofBMPFileHeader + 14 → i ≠ sizeofBMPFileHeader + 15 →
      s1.getD i 0 = s2.getD i 0) :
    (readBMP host s1 m).map (fun r => r.1) = (readBMP host s2 m).map (fun r => r.1) ∧
      (∀ e : BMPExit, e.kind ≠ some ErrorKind.UnsupportedFormat) ∧
      ((∀ b ∈ s1, b < 256) → 32 ≤ host.sizeBits →
        sizeofBMPFileHeader + 16 ≤ (parseFileHeader s1).image_data_address →
        readBMP host s1 m = readBMP host s2 m) := by
  have hsame' : ∀ i, i ≠ 28 → i ≠ 29 → s1.getD i 0 = s2.getD i 0 :=
    fun i h1 h2 => hsame i h1 h2
  refine ⟨readBMP_same_exit host s1 s2 m hlen hsame', ?_, ?_⟩
  · intro e
    cases e <;> decide
  · intro hbytes hbits hoff
    simp only [sizeofBMPFileHeader] at hoff
    apply readBMP_same_result host s1 s2 m hlen hsame'
    have hlt : (parseFileHeader s1).image_data_address < 2 ^ host.sizeBits :=
      lt_of_lt_of_le (readU32_lt s1 hbytes 10) (two_pow_32_le host hbits)
    rw [sizeSub_eq host _ 14 hlt (by omega)]
    omega

theorem sampleBMP_other_depth (i : Nat) (h28 : i ≠ sizeofBMPFileHeader + 14)
    (_h29 : i ≠ sizeofBMPFileHeader + 15) :
    sampleBMP.getD i 0 = (sampleBMP.set 28 8).getD i 0 := by
  rw [List.getD_eq_getElem?_getD, List.getD_eq_getElem?_getD,
    List.getElem?_set_ne (fun h => h28 h.symm)]

theorem C19_bits_per_pixel_not_validated_witness :
    (sampleBMP.length = (sampleBMP.set 28 8).length ∧
      (∀ i, i ≠ sizeofBMPFileHeader + 14 → i ≠ sizeofBMPFileHeader + 15 →
        sampleBMP.getD i 0 = (sampleBMP.set 28 8).getD i 0)) ∧
    ((readBMP sampleHost sampleBMP zeroState).map (fun r => r.1) =
        (readBMP sampleHost (sampleBMP.set 28 8) zeroState).map (fun r => r.1) ∧
      (∀ e : BMPExit, e.kind ≠ some ErrorKind.UnsupportedFormat) ∧
      ((∀ b ∈ sampleBMP, b < 256) → 32 ≤ sampleHost.sizeBits →
        sizeofBMPFileHeader + 16 ≤ (parseFileHeader sampleBMP).image_data_address →
        readBMP sampleHost sampleBMP zeroState =
          readBMP sampleHost (sampleBMP.set 28 8) zeroState)) :=
  ⟨⟨by decide, sampleBMP_other_depth⟩,
    C19_bits_per_pixel_not_validated sampleHost sampleBMP (sampleBMP.set 28 8) zeroState
      (by decide) sampleBMP_other_depth⟩

/-! ## Dirty tracking and the shadow of the row registers -/

theorem keepsCleanRows_refl (m : MatrixState) : keepsCleanRows m m :=
  fun _ h => ⟨h, fun _ _ => rfl⟩

theorem keepsCleanRows_trans (m1 m2 m3 : MatrixState) (h12 : keepsCleanRows m1 m2)
    (h23 : keepsCleanRows m2 m3) : keepsCleanRows m1 m3 := by
  intro row h3
  obtain ⟨h2, hd2⟩ := h23 row h3
  obtain ⟨h1, hd1⟩ := h12 row h2
  exact ⟨h1, fun dY dX => (hd2 dY dX).trans (hd1 dY dX)⟩

theorem keepsCleanRows_setPixel (m : MatrixState) (x y v : Nat) :
    keepsCleanRows m (setPixel m x y v) := by
  by_cases heq : getPixel m x y = v
  · rw [setPixel_of_eq m x y v heq]
    exact keepsCleanRows_refl m
  · intro row hrow
    rw [setPixel_changes] at hrow
    have hne : row ≠ y % 8 := by
      intro h
      rw [if_pos ⟨h, heq⟩] at hrow
      exact Nat.one_ne_zero hrow
    rw [if_neg (fun h => hne h.1)] at hrow
    refine ⟨hrow, fun dY dX => ?_⟩
    funext lX
    rw [setPixel_display, if_neg (fun h => hne h.2.2.1)]

theorem keepsCleanRows_forLoop (n : Nat) (body : Nat → MatrixState → MatrixState)
    (h : ∀ i s, keepsCleanRows s (body i s)) (m : MatrixState) :
    keepsCleanRows m (forLoop n body m) := by
  induction n with
  | zero => exact keepsCleanRows_refl m
  | succ k ih =>
    rw [forLoop_succ]
    exact keepsCleanRows_trans _ _ _ ih (h k _)

theorem keepsCleanRows_forLoopM (n : Nat) (body : Nat → MatrixState → Option MatrixState)
    (h : ∀ i s s', body i s = some s' → keepsCleanRows s s') (m m' : MatrixState)
    (hrun : forLoopM n body m = some m') : keepsCleanRows m m' := by
  induction n generalizing m' with
  | zero =>
    have : m = m' := Option.some.inj hrun
    rw [← this]
    exact keepsCleanRows_refl m
  | succ k ih =>
    rw [forLoopM_succ] at hrun
    cases hk : forLoopM k body m with
    | none => rw [hk] at hrun; exact Option.noConfusion hrun
    | some t =>
      rw [hk] at hrun
      exact keepsCleanRows_trans _ _ _ (ih t hk) (h k t m' hrun)

theorem keepsCleanRows_clearDisplay (m : MatrixState) : keepsCleanRows m (clearDisplay m) := by
  unfold clearDisplay
  apply keepsCleanRows_forLoop
  intro y s
  apply keepsCleanRows_forLoop
  intro x t
  exact keepsCleanRows_setPixel t x y 0

theorem keepsCleanRows_decodeRows (fd : List Nat) (P rs : Nat) (m m' : MatrixState)
    (h : decodeRows fd P rs m = some m') : keepsCleanRows m m' := by
  unfold decodeRows at h
  refine keepsCleanRows_forLoopM _ _ ?_ m m' h
  intro y s s' hy
  refine keepsCleanRows_forLoopM _ _ ?_ s s' hy
  intro x t t' hx
  simp only [] at hx
  cases hb : fd[P + ((GRID_HEIGHT - 1 - y) * rs + x / 8) % 4294967296]? with
  | none => rw [hb] at hx; exact Option.noConfusion hx
  | some b =>
    rw [hb] at hx
    have : setPixel t x y ((b >>> (7 - x % 8) &&& 1) % 256) = t' := Option.some.inj hx
    rw [← this]
    exact keepsCleanRows_setPixel t x y _

theorem keepsCleanRows_readBMP (host : Host) (stdin : List Nat) (m : MatrixState)
    (e : BMPExit) (m' : MatrixState) (h : readBMP host stdin m = some (e, m')) :
    keepsCleanRows m m' := by
  by_cases hshort : stdin.length < 14
  · rw [readBMP_short host stdin m hshort] at h
    have := (Prod.mk.inj (Option.some.inj h)).2
    rw [← this]
    exact keepsCleanRows_refl m
  · rw [readBMP_unfold host stdin m (by omega)] at h
    split_ifs at h
    · rw [← (Prod.mk.inj (Option.some.inj h)).2]
      exact keepsCleanRows_refl m
    · rw [← (Prod.mk.inj (Option.some.inj h)).2]
      exact keepsCleanRows_refl m
    · rw [← (Prod.mk.inj (Option.some.inj h)).2]
      exact keepsCleanRows_refl m
    · rw [← (Prod.mk.inj (Option.some.inj h)).2]
      exact keepsCleanRows_refl m
    · cases hd : decodeRows ((stdin.drop 14).take
          (host.sizeSub (parseFileHeader stdin).fileSize 14))
          (host.sizeSub (parseFileHeader stdin).image_data_address 14)
          (rowSize (parseInfoHeader ((stdin.drop 14).take
            (host.sizeSub (parseFileHeader stdin).fileSize 14))).width) m with
      | none => rw [hd] at h; exact Option.noConfusion h
      | some t =>
        rw [hd] at h
        have := (Prod.mk.inj (Option.some.inj h)).2
        rw [← this]
        exact keepsCleanRows_decodeRows _ _ _ m t hd

theorem shadowInv_of_keeps (m m' : MatrixState) (shadow : Shadow)
    (hinv : shadowInv m shadow) (hk : keepsCleanRows m m') : shadowInv m' shadow := by
  intro row hrow hclean dY dX hY hX
  obtain ⟨hc, hd⟩ := hk row hclean
  rw [hd dY dX]
  exact hinv row hrow hc dY dX hY hX

theorem applyFrame_fillFrame (shadow : Shadow) (m : MatrixState) (r0 : Nat) (hr0 : r0 < 8)
    (i r : Nat) :
    applyFrame shadow (fillFrame m r0) i r =
      if i < 4 ∧ r = r0 then packRow (m.display 0 i r0) else shadow i r := by
  unfold applyFrame
  rw [fillFrame_eq]
  have hm : (r0 + 1) % 256 = r0 + 1 := Nat.mod_eq_of_lt (by omega)
  simp only [displayCount, DISPLAY_X, DISPLAY_Y, MATRIX_HEIGHT, hm]
  by_cases hi : i < 4
  · by_cases hr : r = r0
    · subst hr
      interval_cases i <;> simp [hr0]
    · have hne : ¬ (r0 + 1 = r + 1) := by omega
      interval_cases i <;> simp [hne, hr]
  · rw [if_neg (fun h => hi h.1), if_neg (fun h => hi (by omega))]

theorem foldl_applyFrame (m : MatrixState) (rows : List Nat) (hrows : ∀ r ∈ rows, r < 8)
    (shadow : Shadow) (i r : Nat) :
    (rows.map (fillFrame m)).foldl applyFrame shadow i r =
      if i < 4 ∧ r ∈ rows then packRow (m.display 0 i r) else shadow i r := by
  induction rows generalizing shadow with
  | nil => simp
  | cons r0 rest ih =>
    rw [List.map_cons, List.foldl_cons,
      ih (fun r hr => hrows r (List.mem_cons_of_mem _ hr))]
    by_cases hin : i < 4 ∧ r ∈ rest
    · rw [if_pos hin, if_pos ⟨hin.1, List.mem_cons_of_mem _ hin.2⟩]
    · rw [if_neg hin, applyFrame_fillFrame shadow m r0 (hrows r0 (List.mem_cons_self _ _))]
      by_cases h0 : i < 4 ∧ r = r0
      · rw [if_pos h0, if_pos ⟨h0.1, h0.2 ▸ List.mem_cons_self _ _⟩, h0.2]
      · rw [if_neg h0, if_neg]
        rintro ⟨hi, hmem⟩
        rcases List.mem_cons.1 hmem with h | h
        · exact h0 ⟨hi, h⟩
        · exact hin ⟨hi, h⟩

theorem shadowAgrees_flush (m : MatrixState) (shadow : Shadow) (hinv : shadowInv m shadow)
    (m' : MatrixState) (hd : m'.display = m.display) :
    shadowAgrees m'
      ((((List.range 8).filter (fun r => decide (m.changes r ≠ 0))).map (fillFrame m)).foldl
        applyFrame shadow) := by
  intro row hrow dY dX hY hX
  simp only [DISPLAY_X, DISPLAY_Y, MATRIX_HEIGHT] at hY hX hrow ⊢
  have hd0 : dY = 0 := by omega
  subst hd0
  rw [foldl_applyFrame m _ (fun r hr => List.mem_range.1 (List.mem_filter.1 hr).1), hd]
  simp only [Nat.zero_mul, Nat.zero_add]
  by_cases hdirty : m.changes row = 0
  · rw [if_neg]
    · have h := hinv row hrow hdirty 0 dX (by decide) hX
      simp only [DISPLAY_X, Nat.zero_mul, Nat.zero_add] at h
      exact h
    · rintro ⟨_, hmem⟩
      have := (List.mem_filter.1 hmem).2
      simp [hdirty] at this
  · rw [if_pos ⟨hX, List.mem_filter.2 ⟨List.mem_range.2 hrow, by simp [hdirty]⟩⟩]

theorem shadowInv_of_agrees (m : MatrixState) (shadow : Shadow) (h : shadowAgrees m shadow) :
    shadowInv m shadow :=
  fun row hrow _ => h row hrow

theorem shadowAgrees_step_flush (rw : Nat → List Nat → Int) (s s' : MatrixState × Shadow)
    (hinv : shadowInv s.1 s.2) (hstep : step (Op.applyUpdates rw) s = some s') :
    shadowAgrees s'.1 s'.2 := by
  obtain ⟨m, sh⟩ := s
  dsimp only [step] at hstep hinv
  rw [applyUpdates_eq] at hstep
  dsimp only at hstep
  have h := (Option.some.inj hstep).symm
  subst h
  dsimp only
  exact shadowAgrees_flush m sh hinv _ rfl

theorem shadowInv_step (op : Op) (s s' : MatrixState × Shadow) (hinv : shadowInv s.1 s.2)
    (hstep : step op s = some s') : shadowInv s'.1 s'.2 := by
  cases op with
  | setPixel x y value =>
    obtain ⟨m, sh⟩ := s
    dsimp only [step] at hstep hinv
    split_ifs at hstep
    have h := (Option.some.inj hstep).symm
    subst h
    dsimp only
    exact shadowInv_of_keeps _ _ _ hinv (keepsCleanRows_setPixel m x y value)
  | clearDisplay =>
    obtain ⟨m, sh⟩ := s
    dsimp only [step] at hstep hinv
    have h := (Option.some.inj hstep).symm
    subst h
    dsimp only
    exact shadowInv_of_keeps _ _ _ hinv (keepsCleanRows_clearDisplay m)
  | readBMP host stdin =>
    obtain ⟨m, sh⟩ := s
    dsimp only [step] at hstep hinv
    cases hr : readBMP host stdin m with
    | none => rw [hr] at hstep; exact Option.noConfusion hstep
    | some r =>
      obtain ⟨e, m'⟩ := r
      rw [hr] at hstep
      have h := (Option.some.inj hstep).symm
      subst h
      dsimp only
      exact shadowInv_of_keeps _ _ _ hinv (keepsCleanRows_readBMP host stdin m e m' hr)
  | applyUpdates rw =>
    exact shadowInv_of_agrees _ _ (shadowAgrees_step_flush rw s s' hinv hstep)

theorem run_nil (s : MatrixState × Shadow) : run [] s = some s := rfl

theorem run_cons (op : Op) (rest : List Op) (s : MatrixState × Shadow) :
    run (op :: rest) s = (step op s).bind (run rest) := rfl

theorem shadowInv_run (ops : List Op) (s s' : MatrixState × Shadow)
    (hinv : shadowInv s.1 s.2) (hrun : run ops s = some s') : shadowInv s'.1 s'.2 := by
  induction ops generalizing s with
  | nil =>
    rw [run_nil] at hrun
    rw [← Option.some.inj hrun]
    exact hinv
  | cons op rest ih =>
    rw [run_cons] at hrun
    cases hs : step op s with
    | none => rw [hs] at hrun; exact Option.noConfusion hrun
    | some t =>
      rw [hs] at hrun
      exact ih t (shadowInv_step op s t hinv hs) hrun

theorem run_append (ops1 ops2 : List Op) (s : MatrixState × Shadow) :
    run (ops1 ++ ops2) s = (run ops1 s).bind (run ops2) := by
  induction ops1 generalizing s with
  | nil => rfl
  | cons op rest ih =>
    rw [List.cons_append, run_cons, run_cons]
    cases hs : step op s with
    | none => rfl
    | some t => exact ih t

theorem shadowAgrees_run_flush (ops : List Op) (rw : Nat → List Nat → Int)
    (s s' : MatrixState × Shadow) (hinv : shadowInv s.1 s.2)
    (hrun : run (ops ++ [Op.applyUpdates rw]) s = some s') : shadowAgrees s'.1 s'.2 := by
  rw [run_append] at hrun
  cases hr : run ops s with
  | none => rw [hr] at hrun; exact Option.noConfusion hrun
  | some t =>
    rw [hr, Option.some_bind, run_cons] at hrun
    have ht := shadowInv_run ops s t hinv hr
    cases hs : step (Op.applyUpdates rw) t with
    | none => rw [hs] at hrun; exact Option.noConfusion hrun
    | some u =>
      rw [hs, Option.some_bind, run_nil] at hrun
      rw [← Option.some.inj hrun]
      exact shadowAgrees_step_flush rw t u ht hs

theorem run_isSome (ops : List Op) (s : MatrixState × Shadow)
    (h : ∀ op ∈ ops, ∀ t, (step op t).isSome = true) : (run ops s).isSome = true := by
  induction ops generalizing s with
  | nil => rfl
  | cons op rest ih =>
    rw [run_cons]
    have hop := h op (List.mem_cons_self _ _) s
    cases hs : step op s with
    | none => rw [hs] at hop; exact Bool.noConfusion hop
    | some t => exact ih t (fun o ho => h o (List.mem_cons_of_mem _ ho))

/-- C20: dirty tracking never loses an update. With each module's eight row registers
modelled as a shadow that a sent frame overwrites (pair i of the frame for address r + 1
sets row r of module i), the predicate "for every local row whose dirty flag is clear,
every module's shadow row equals the byte packed from the grid's current pixels of that
row" holds wherever shadow and grid agree (as the zero-initialised grid and an all-zero
shadow do) and is preserved by setPixel (any value, binary
ones included), clearDisplay, readBMP (whatever exit it takes) and applyUpdates, after
which shadow and grid agree on all rows. Hence, starting from a state where shadow and
grid agree, after any sequence of those operations that ends in applyUpdates the shadow
equals the packed grid for all rows of all modules; a sequence of in-range setPixel,
clearDisplay and applyUpdates always runs to its end. -/
theorem C20_dirty_tracking_keeps_updates :
    shadowAgrees zeroState (fun _ _ => 0) ∧
    (∀ m shadow, shadowAgrees m shadow → shadowInv m shadow) ∧
    (∀ m shadow x y value, shadowInv m shadow → shadowInv (setPixel m x y value) shadow) ∧
    (∀ m shadow, shadowInv m shadow → shadowInv (clearDisplay m) shadow) ∧
    (∀ host stdin m shadow exit m', shadowInv m shadow →
      readBMP host stdin m = some (exit, m') → shadowInv m' shadow) ∧
    (∀ rw m shadow, shadowInv m shadow →
      shadowAgrees (applyUpdates rw m).2 ((applyUpdates rw m).1.foldl applyFrame shadow) ∧
      shadowInv (applyUpdates rw m).2 ((applyUpdates rw m).1.foldl applyFrame shadow)) ∧
    (∀ ops rw s s', shadowAgrees s.1 s.2 → run (ops ++ [Op.applyUpdates rw]) s = some s' →
      shadowAgrees s'.1 s'.2 ∧
      ∀ row dispY dispX, row < MATRIX_HEIGHT → dispY < DISPLAY_Y → dispX < DISPLAY_X →
        s'.2 (dispY * DISPLAY_X + dispX) row = packRow (s'.1.display dispY dispX row)) ∧
    (∀ ops s,
      (∀ op ∈ ops, (∃ x y value, x < GRID_WIDTH ∧ y < GRID_HEIGHT ∧ value < 256 ∧
          op = Op.setPixel x y value) ∨ op = Op.clearDisplay ∨ ∃ rw, op = Op.applyUpdates rw) →
      ∃ s', run ops s = some s') := by
  have hzero : packRow (fun _ => 0) = 0 := by decide
  refine ⟨fun _ _ _ _ _ _ => hzero.symm, shadowInv_of_agrees, ?_, ?_, ?_, ?_, ?_, ?_⟩
  · intro m shadow x y value hinv
    exact shadowInv_of_keeps _ _ _ hinv (keepsCleanRows_setPixel m x y value)
  · intro m shadow hinv
    exact shadowInv_of_keeps _ _ _ hinv (keepsCleanRows_clearDisplay m)
  · intro host stdin m shadow exit m' hinv hread
    exact shadowInv_of_keeps _ _ _ hinv (keepsCleanRows_readBMP host stdin m exit m' hread)
  · intro rw m shadow hinv
    rw [applyUpdates_eq]
    dsimp only
    have h := shadowAgrees_flush m shadow hinv
      { display := m.display, changes := fun r => if r < 8 then 0 else m.changes r } rfl
    exact ⟨h, shadowInv_of_agrees _ _ h⟩
  · intro ops rw s s' hagree hrun
    have h := shadowAgrees_run_flush ops rw s s' (shadowInv_of_agrees _ _ hagree) hrun
    exact ⟨h, fun row dY dX hrow hY hX => h row hrow dY dX hY hX⟩
  · intro ops s hops
    have hsome : (run ops s).isSome = true := by
      apply run_isSome
      intro op hop t
      rcases hops op hop with ⟨x, y, value, hx, hy, hv, rfl⟩ | rfl | ⟨rw, rfl⟩
      · dsimp only [step]
        rw [if_pos ⟨hx, hy, hv⟩]
        rfl
      · rfl
      · rfl
    cases hr : run ops s with
    | none => rw [hr] at hsome; exact Bool.noConfusion hsome
    | some t => exact ⟨t, rfl⟩

end Max7219
